import Mathlib

/-!
# Verification of the Chia wallet trade/offer backcompat engine and coin store

Shallow embedding of `src/chia/wallet/action_manager/offer_action_backcompat.py`
and `src/chia/wallet/wallet_merkle_coin_store.py`.  Python integers are `Nat`/`Int`;
fixed-width conversions (`uint16`, `uint64`) check their range explicitly and raise;
fallible code returns `Except PyErr`; Python `float` arithmetic (used only in
`calculate_royalty_payments`) is modelled as IEEE-754 binary64: every
intermediate value is the exact rational value of the correctly rounded double
(round to nearest, ties to even).
-/

namespace ChiaSpec

/-- The kinds of Python exceptions raised by the modelled code. -/
inductive PyErr where
  | keyError
  | typeError
  | valueError
  | attributeError
  | assertionError
  | overflowError
  | recursionError
  | nameError
deriving DecidableEq, Repr

/-- `True` iff the computation raised. -/
def isError {α : Type} : Except PyErr α → Bool
  | .error _ => true
  | .ok _ => false

/-! ## Coin/credential state store (`wallet_merkle_coin_store.py`)

`Coin` is `chia.types.blockchain_format.coin.Coin`: `(parent_coin_info, puzzle_hash,
amount)`.  Hashes/ids are modelled as `Nat`. -/

structure Coin where
  parent_coin_info : Nat
  puzzle_hash : Nat
  amount : Nat
deriving DecidableEq, Repr

/-- One row of the `merkle_coin_record` table
(`WalletMerkleCoinRecord` from `wallet_merkle_coin_record.py`, shape per the
`CREATE TABLE` statement and `coin_record_from_row`). -/
structure WalletMerkleCoinRecord where
  coin : Coin
  confirmed_block_height : Nat
  spent_block_height : Nat
  spent : Bool
  coin_type : Nat
  metadata : Option String
  wallet_type : Nat
  wallet_id : Nat
deriving DecidableEq, Repr

/-- Modelled from the spec: the coin id digest (`record.name()`, an external
tree-hash collaborator) is any injection of the coin's three fields; we use
the canonical pairing function. -/
def coinName (c : Coin) : Nat :=
  Nat.pair c.parent_coin_info (Nat.pair c.puzzle_hash c.amount)

/-- The logical content of the `merkle_coin_record` table: rows keyed by
`coin_name` (the SQL primary key). -/
abbrev MerkleStore := List (Nat × WalletMerkleCoinRecord)

/-- `INSERT OR REPLACE` keyed on the primary key `coin_name`. -/
def insertOrReplace (name : Nat) (r : WalletMerkleCoinRecord) (s : MerkleStore) : MerkleStore :=
  if (s.filter (fun p => p.1 = name)).isEmpty then
    s ++ [(name, r)]
  else
    s.map (fun p => if p.1 = name then (name, r) else p)

/-- `WalletMerkleCoinStore.add_coin_record(record, name)`:
asserts `record.spent == (record.spent_block_height != 0)` (an `AssertionError`
when it fails) and then `INSERT OR REPLACE`s the row. -/
def add_coin_record (s : MerkleStore) (record : WalletMerkleCoinRecord) (name : Option Nat) :
    Except PyErr MerkleStore :=
  let n := name.getD (coinName record.coin)
  if record.spent = decide (record.spent_block_height ≠ 0) then
    .ok (insertOrReplace n record s)
  else
    .error .assertionError

/-- `WalletMerkleCoinStore.set_spent(coin_name, height)`:
`UPDATE merkle_coin_record SET spent_height=?, spent=1 WHERE coin_name=?`. -/
def set_spent (s : MerkleStore) (coin_name : Nat) (height : Nat) : MerkleStore :=
  s.map (fun p =>
    if p.1 = coin_name then
      (p.1, { p.2 with spent_block_height := height, spent := true })
    else p)

/-- `WalletMerkleCoinStore.rollback_to_block(height)`:
`DELETE FROM merkle_coin_record WHERE confirmed_height>?` followed by
`UPDATE merkle_coin_record SET spent_height = 0, spent = 0 WHERE spent_height>?`.
The height may be `-1` ("rollback all"), hence `Int`. -/
def rollback_to_block (s : MerkleStore) (height : Int) : MerkleStore :=
  (s.filter (fun p => ¬ ((p.2.confirmed_block_height : Int) > height))).map
    (fun p =>
      if (p.2.spent_block_height : Int) > height then
        (p.1, { p.2 with spent_block_height := 0, spent := false })
      else p)

/-- The store invariant from the spec: `spent == (spent_height != 0)` for every row. -/
def storeInvariant (s : MerkleStore) : Prop :=
  ∀ p ∈ s, p.2.spent = decide (p.2.spent_block_height ≠ 0)

instance (s : MerkleStore) : Decidable (storeInvariant s) := by
  unfold storeInvariant; infer_instance

/-- The record reset performed by the rollback `UPDATE`. -/
def resetRecord (r : WalletMerkleCoinRecord) : WalletMerkleCoinRecord :=
  { r with spent_block_height := 0, spent := false }

/-- **C3.** For every height `h` and store state, after `rollback_to_block(h)`:
no surviving record has `confirmed_height > h`; every record confirmed at or
below `h` whose `spent_height` exceeded `h` survives with `spent == false` and
`spent_height == 0`; and every record confirmed at or below `h` with
`spent_height` at or below `h` is unchanged. -/
theorem rollback_to_block_spec (s : MerkleStore) (h : Int) :
    (∀ p ∈ rollback_to_block s h, ¬ ((p.2.confirmed_block_height : Int) > h)) ∧
    (∀ p ∈ s, (p.2.confirmed_block_height : Int) ≤ h →
      (p.2.spent_block_height : Int) > h →
        (p.1, resetRecord p.2) ∈ rollback_to_block s h ∧
        (resetRecord p.2).spent = false ∧ (resetRecord p.2).spent_block_height = 0) ∧
    (∀ p ∈ s, (p.2.confirmed_block_height : Int) ≤ h →
      (p.2.spent_block_height : Int) ≤ h → p ∈ rollback_to_block s h) := by
  refine ⟨?_, ?_, ?_⟩
  · intro p hp
    unfold rollback_to_block at hp
    rcases List.mem_map.mp hp with ⟨q, hq, hfq⟩
    rcases List.mem_filter.mp hq with ⟨_, hconf⟩
    by_cases hs : (q.2.spent_block_height : Int) > h
    · simp only [hs, if_pos] at hfq
      subst hfq
      simpa using of_decide_eq_true hconf
    · simp only [hs, if_neg, not_false_eq_true] at hfq
      subst hfq
      simpa using of_decide_eq_true hconf
  · intro p hp hconf hspent
    have hfil : p ∈ s.filter (fun p => ¬ ((p.2.confirmed_block_height : Int) > h)) :=
      List.mem_filter.mpr ⟨hp, by simpa using not_lt.mpr hconf⟩
    refine ⟨?_, rfl, rfl⟩
    unfold rollback_to_block
    refine List.mem_map.mpr ⟨p, hfil, ?_⟩
    simp only [hspent, if_pos]
    rfl
  · intro p hp hconf hspent
    have hfil : p ∈ s.filter (fun p => ¬ ((p.2.confirmed_block_height : Int) > h)) :=
      List.mem_filter.mpr ⟨hp, by simpa using not_lt.mpr hconf⟩
    unfold rollback_to_block
    refine List.mem_map.mpr ⟨p, hfil, ?_⟩
    have : ¬ ((p.2.spent_block_height : Int) > h) := not_lt.mpr hspent
    simp only [this, if_neg, not_false_eq_true]

/-- The spec's scenario record confirmed at 101 (deleted by `rollback_to_block 100`). -/
def recA : WalletMerkleCoinRecord :=
  ⟨⟨1, 2, 3⟩, 101, 0, false, 0, none, 0, 1⟩

/-- The spec's scenario record confirmed at 90 and spent at 105
(reset to unspent by `rollback_to_block 100`). -/
def recB : WalletMerkleCoinRecord :=
  ⟨⟨4, 5, 6⟩, 90, 105, true, 0, none, 0, 1⟩

/-- Witness for `rollback_to_block_spec` at the spec's scenario: rolling back to
height 100 a store holding a record confirmed at 101 and a record confirmed at
90 / spent at 105 keeps only the latter, reset to unspent. -/
theorem rollback_to_block_spec_witness :
    ((10, resetRecord recB) ∈ rollback_to_block [(9, recA), (10, recB)] 100 ∧
      (resetRecord recB).spent = false ∧ (resetRecord recB).spent_block_height = 0) ∧
    (∀ p ∈ rollback_to_block [(9, recA), (10, recB)] 100,
      ¬ ((p.2.confirmed_block_height : Int) > 100)) :=
  ⟨(rollback_to_block_spec [(9, recA), (10, recB)] 100).2.1 (10, recB) (by decide)
      (by decide) (by decide),
    (rollback_to_block_spec [(9, recA), (10, recB)] 100).1⟩

/-- **C4 counterexample.** The claim quantifies `set_spent` over *every* height
argument; at height 0 the updated row has `spent == true` but
`spent_height == 0`, violating the invariant.  Concretely: a one-row store
satisfying the invariant stops satisfying it after `set_spent` with height 0. -/
theorem set_spent_zero_breaks_invariant :
    storeInvariant [(7, recB)] ∧ ¬ storeInvariant (set_spent [(7, recB)] 7 0) := by
  constructor
  · decide
  · decide

/-- **C4 (amended).** The invariant `spent == (spent_height != 0)` is preserved
by every committed write: `add_coin_record` (whose assertion rejects records
violating it), `set_spent` for every *non-zero* height argument, and
`rollback_to_block` for every height.  (The original claim's "for every height
argument" fails at height 0, see `set_spent_zero_breaks_invariant`.) -/
theorem store_writes_preserve_invariant :
    (∀ (s : MerkleStore) (r : WalletMerkleCoinRecord) (nm : Option Nat) (s' : MerkleStore),
      storeInvariant s → add_coin_record s r nm = .ok s' → storeInvariant s') ∧
    (∀ (s : MerkleStore) (cn : Nat) (ht : Nat),
      storeInvariant s → ht ≠ 0 → storeInvariant (set_spent s cn ht)) ∧
    (∀ (s : MerkleStore) (h : Int),
      storeInvariant s → storeInvariant (rollback_to_block s h)) := by
  refine ⟨?_, ?_, ?_⟩
  · intro s r nm s' hinv hok
    unfold add_coin_record at hok
    by_cases hr : r.spent = decide (r.spent_block_height ≠ 0)
    · simp only [hr, if_pos] at hok
      injection hok with hok
      subst hok
      intro p hp
      unfold insertOrReplace at hp
      by_cases hempty : ((s.filter (fun p => p.1 = nm.getD (coinName r.coin))).isEmpty : Bool)
      · simp only [hempty, if_pos] at hp
        rcases List.mem_append.mp hp with hmem | hmem
        · exact hinv p hmem
        · rcases List.mem_singleton.mp hmem with rfl
          exact hr
      · simp only [hempty, if_neg, not_false_eq_true] at hp
        rcases List.mem_map.mp hp with ⟨q, hq, hfq⟩
        by_cases hk : q.1 = nm.getD (coinName r.coin)
        · simp only [hk, if_pos] at hfq
          subst hfq
          exact hr
        · simp only [hk, if_neg, not_false_eq_true] at hfq
          subst hfq
          exact hinv q hq
    · simp only [hr, if_neg, not_false_eq_true] at hok
      exact absurd hok (by simp)
  · intro s cn ht hinv hht p hp
    unfold set_spent at hp
    rcases List.mem_map.mp hp with ⟨q, hq, hfq⟩
    by_cases hk : q.1 = cn
    · simp only [hk, if_pos] at hfq
      subst hfq
      simpa using hht
    · simp only [hk, if_neg, not_false_eq_true] at hfq
      subst hfq
      exact hinv q hq
  · intro s h hinv p hp
    unfold rollback_to_block at hp
    rcases List.mem_map.mp hp with ⟨q, hq, hfq⟩
    by_cases hs : (q.2.spent_block_height : Int) > h
    · simp only [hs, if_pos] at hfq
      subst hfq
      simp
    · simp only [hs, if_neg, not_false_eq_true] at hfq
      subst hfq
      exact hinv q (List.mem_filter.mp hq).1

/-- Witness for `store_writes_preserve_invariant` at concrete inputs: inserting
a valid record into the empty store, spending it at height 5, and rolling back
to height 3 each preserve the invariant. -/
theorem store_writes_preserve_invariant_witness :
    storeInvariant (set_spent [(7, recB)] 7 5) ∧
    storeInvariant (rollback_to_block [(7, recB)] 3) :=
  ⟨store_writes_preserve_invariant.2.1 [(7, recB)] 7 5 (by decide) (by decide),
    store_writes_preserve_invariant.2.2 [(7, recB)] 3 (by decide)⟩

/-! ## Generic solver values

Modelled from the spec: `Solver` / `PuzzleInfo` (`chia.wallet.puzzle_drivers`)
wrap open string-keyed mappings ("the generic action-description format");
values are strings, integers, `None`, lists, or nested mappings.  Key lookup on
a missing key raises `KeyError`. -/

inductive SV where
  | str : String → SV
  | int : Int → SV
  | pynone : SV
  | list : List SV → SV
  | dict : List (String × SV) → SV
deriving Repr

abbrev SVDict := List (String × SV)

/-- Python dict key lookup (keys are unique, so first match suffices). -/
def lookupKey (k : String) : SVDict → Option SV
  | [] => none
  | (k', v) :: rest => if k' = k then some v else lookupKey k rest

def hasKey (k : String) (d : SVDict) : Bool :=
  (lookupKey k d).isSome

/-- Python dict assignment `d[k] = v`: replaces in place, else appends. -/
def setKey (k : String) (v : SV) (d : SVDict) : SVDict :=
  if hasKey k d then d.map (fun p => if p.1 = k then (k, v) else p) else d ++ [(k, v)]

/-- Python `del d[k]`. -/
def delKey (k : String) (d : SVDict) : SVDict :=
  d.filter (fun p => p.1 ≠ k)

/-- Python `d.setdefault(k, v)`. -/
def setdefault (k : String) (v : SV) (d : SVDict) : SVDict :=
  if hasKey k d then d else d ++ [(k, v)]

mutual

/-- Structural equality of solver values, mirroring Python `==`
(dict comparison is key-set based, hence order-insensitive). -/
def SV.beq : SV → SV → Bool
  | .str a, .str b => a = b
  | .int a, .int b => a = b
  | .pynone, .pynone => true
  | .list xs, .list ys => SV.beqList xs ys
  | .dict xs, .dict ys => xs.length = ys.length && SV.beqDictSub xs ys
  | _, _ => false

def SV.beqList : List SV → List SV → Bool
  | [], [] => true
  | x :: xs, y :: ys => SV.beq x y && SV.beqList xs ys
  | _, _ => false

def SV.beqDictSub : SVDict → SVDict → Bool
  | [], _ => true
  | (k, v) :: xs, ys =>
    (match lookupKey k ys with
      | some w => SV.beq v w
      | none => false) && SV.beqDictSub xs ys

end

/-- Decimal digits to a number (`None` on a non-digit or the empty string). -/
def digitsToNat : List Char → Option Nat
  | [] => none
  | cs =>
    cs.foldl
      (fun acc c => acc.bind (fun a =>
        if '0' ≤ c ∧ c ≤ '9' then some (a * 10 + (c.toNat - '0'.toNat)) else none))
      (some 0)

/-- Python `int(s)` on decimal text with an optional sign. -/
def strToInt (s0 : String) : Option Int :=
  match s0.toList with
  | '-' :: rest => (digitsToNat rest).map (fun n => -(n : Int))
  | cs => (digitsToNat cs).map (fun n => (n : Int))

/-- Modelled from the spec: `cast_to_int` (`chia.wallet.puzzle_drivers`) turns a
solver value into an integer; amounts are serialized as text. -/
def cast_to_int : SV → Except PyErr Int
  | .int n => .ok n
  | .str s =>
    match strToInt s with
    | some n => .ok n
    | none => .error .valueError
  | _ => .error .valueError

/-- `bytes32.hex()`: lowercase hex of a 32-byte value, 64 characters. -/
def hex64 (n : Nat) : String :=
  let ds := Nat.toDigits 16 n
  ⟨List.replicate (64 - ds.length) '0' ++ ds⟩

/-- `"0x" + key.hex()` as used throughout the bridge. -/
def hexKey (n : Nat) : String := "0x" ++ hex64 n

/-- Python `uint16(x)` (`chia.util.ints`): range-checked conversion. -/
def uint16 (v : Int) : Except PyErr Nat :=
  if 0 ≤ v ∧ v < 65536 then .ok v.toNat else .error .valueError

/-- Python `uint64(x)` (`chia.util.ints`): range-checked conversion. -/
def uint64 (v : Int) : Except PyErr Nat :=
  if 0 ≤ v ∧ v < 2 ^ 64 then .ok v.toNat else .error .valueError

mutual

/-- A computable structural size for solver values (the auto-derived `sizeOf`
for the nested inductive has no executable code); used only to bound the
`also`-chain walks. -/
def SV.size : SV → Nat
  | .str _ => 1
  | .int _ => 1
  | .pynone => 1
  | .list xs => 1 + SV.sizeList xs
  | .dict xs => 1 + SV.sizeDict xs

def SV.sizeList : List SV → Nat
  | [] => 0
  | x :: xs => SV.size x + SV.sizeList xs

def SV.sizeDict : SVDict → Nat
  | [] => 0
  | (_, v) :: xs => 1 + SV.size v + SV.sizeDict xs

end

/-! ## Asset types and puzzle drivers

The `AssetType` enum values (`chia.wallet.outer_puzzles`), and the
`PuzzleInfo` driver operations used by the bridge.  Modelled from the spec:
a driver is a mapping with a `"type"` tag and an optional nested `"also"`
driver; `check_type` compares the declared layer stack. -/

def typeCAT : String := "CAT"
def typeSINGLETON : String := "singleton"
def typeMETADATA : String := "metadata"
def typeOWNERSHIP : String := "ownership"

/-- `PuzzleInfo.type()`: the driver's `"type"` tag. -/
def svType (d : SVDict) : Except PyErr String :=
  match lookupKey "type" d with
  | some (.str t) => .ok t
  | some _ => .error .typeError
  | none => .error .keyError

/-- `PuzzleInfo.also()`: the nested driver under `"also"`, or `None`. -/
def svAlso (d : SVDict) : Option SVDict :=
  match lookupKey "also" d with
  | some (.dict e) => some e
  | _ => none

/-- The driver's layer-type stack, outermost first (the `"type"` tags along
the `"also"` chain).  The fuel, instantiated with the driver's size, bounds
the finite acyclic chain (each step descends into a strictly smaller nested
mapping). -/
def chainTypesAux : Nat → SVDict → List String
  | 0, _ => []
  | n + 1, d =>
    (match lookupKey "type" d with
      | some (.str t) => [t]
      | _ => []) ++
    (match lookupKey "also" d with
      | some (.dict e) => chainTypesAux n e
      | _ => [])

def chainTypes (d : SVDict) : List String :=
  chainTypesAux (SV.sizeDict d + 1) d

/-- `PuzzleInfo.check_type(types)`: the declared layer stack equals `types`. -/
def check_type (d : SVDict) (types : List String) : Bool :=
  chainTypes d = types

/-- `chia.wallet.payment.Payment` as produced by the royalty computation:
`(puzzle-hash address, uint64 amount, memos)`. -/
structure PaymentR where
  address : Int
  amount : Nat
  memos : List Int
deriving DecidableEq, Repr

/-! ## `calculate_royalty_payments` (offer_action_backcompat.py, lines 309-341) -/

/-- Floor-of-base-2-logarithm with structural fuel (`fuel ≥ n` suffices). -/
def log2fuel : Nat → Nat → Nat
  | 0, _ => 0
  | f + 1, n => if 2 ≤ n then log2fuel f (n / 2) + 1 else 0

/-- `⌊log₂ n⌋` for `n ≥ 1` (and `0` for `n = 0`). -/
def natLog2 (n : Nat) : Nat := log2fuel n n

/-- Decides `2 ^ e ≤ a / b` on naturals with an integer exponent `e`. -/
def le2pow (e : Int) (a b : Nat) : Bool :=
  if 0 ≤ e then decide (b * 2 ^ e.toNat ≤ a) else decide (b ≤ a * 2 ^ (-e).toNat)

/-- The binary exponent of the positive rational `a / b`: the unique `e` with
`2 ^ e ≤ a / b < 2 ^ (e + 1)`. -/
def floatExp (a b : Nat) : Int :=
  if le2pow ((natLog2 a : Int) - natLog2 b) a b then (natLog2 a : Int) - natLog2 b
  else (natLog2 a : Int) - natLog2 b - 1

/-- The quantum (unit in the last place) of an IEEE-754 binary64 double in the
binade of `a / b`: `2 ^ (exponent - 52)`, clamped at the subnormal quantum
`2 ^ (-1074)`. -/
def floatQuantum (a b : Nat) : Int := max (floatExp a b - 52) (-1074)

/-- Rounding `num / den` to the nearest integer, ties to even. -/
def roundHalfEven (num den : Nat) : Nat :=
  if 2 * (num % den) < den then num / den
  else if den < 2 * (num % den) then num / den + 1
  else if num / den % 2 = 0 then num / den else num / den + 1

/-- The nearest IEEE-754 binary64 double to the positive rational `a / b`
(ties to even), returned as its exact rational value: the nearest multiple of
the binade's quantum.  Rounding up to the next binade yields mantissa `2 ^ 53`,
whose value is the correct double; overflow to infinity (magnitudes around
`2 ^ 1024`) is not modelled, and every value arising below stays far under it. -/
def roundPosAux (a b : Nat) : ℚ :=
  ((roundHalfEven (a * 2 ^ (-floatQuantum a b).toNat) (b * 2 ^ (floatQuantum a b).toNat) *
      2 ^ (floatQuantum a b).toNat : Nat) : ℚ) /
    ((2 ^ (-floatQuantum a b).toNat : Nat) : ℚ)

/-- Correct rounding of a rational value to the nearest IEEE-754 binary64
double (round to nearest, ties to even), as performed by every Python float
operation.  The result is the double's exact rational value. -/
def roundDouble (x : ℚ) : ℚ :=
  if x.num < 0 then -roundPosAux x.num.natAbs x.den else roundPosAux x.num.natAbs x.den

/-- Python `math.floor` on the exact value of a float: `⌊x⌋`, computed as a
floor division of the numerator by the denominator (see `pyfloor_eq_floor`). -/
def pyfloor (x : ℚ) : Int := x.num.fdiv x.den

/-- Python float division (`a / b` on numbers): correctly rounded to binary64.
CPython's int/int true division is correctly rounded even for big ints. -/
def fdivD (a b : ℚ) : ℚ := roundDouble (a / b)

/-- Python float multiplication: correctly rounded to binary64. -/
def fmulD (a b : ℚ) : ℚ := roundDouble (a * b)

/-- The royalty amount
`math.floor(math.floor(offered_amount / len(royalty_nft_assets)) * (pts / 10000))`
in Python float (IEEE-754 binary64) arithmetic: `offered_amount / n` is a
correctly rounded float division, `math.floor` is exact, the resulting int is
converted back to a double for the multiplication (`roundDouble`; the
conversion is exact since the floor of a finite double is representable),
`pts / 10000` is a correctly rounded float division, the product rounds once
more, and the outer `math.floor` is exact.  `n ≥ 1` at every call site (the
loop iterates over the royalty list, so it is non-empty there), hence no
float division by zero arises. -/
def extra_royalty_amount (offered_amount : Int) (n : Nat) (pts : Nat) : Int :=
  pyfloor (fmulD (roundDouble ((pyfloor (fdivD (offered_amount : ℚ) (n : ℚ)) : Int) : ℚ))
    (fdivD (pts : ℚ) ((10000 : Nat) : ℚ)))

/-- The royalty amount as the `Nat` carried by a successful `uint64`. -/
def royaltyAmt (A : Nat) (n pts : Nat) : Nat := (extra_royalty_amount (A : Int) n pts).toNat

/-- Model validation against CPython: `(2 ^ 53 + 1) / 1` rounds to the double
`2 ^ 53` (tie to even mantissa), so the code pays `9007199254740992` here while
the exact formula `floor(floor(A/n)·pct/10000)` would give `9007199254740993`. -/
theorem extra_royalty_amount_rounds_to_even :
    extra_royalty_amount ((2 ^ 53 + 1 : Nat) : Int) 1 10000 = 2 ^ 53 := by
  with_unfolding_all decide

/-- Float rounding can pay MORE than the offered amount even for an in-range
percentage: `(2 ^ 53 + 3) / 1` rounds up to the double `2 ^ 53 + 4`, and with
`pct = 10000` the payment is `2 ^ 53 + 4 > A`. -/
theorem extra_royalty_amount_can_exceed_offer :
    ((2 ^ 53 + 3 : Nat) : Int) < extra_royalty_amount ((2 ^ 53 + 3 : Nat) : Int) 1 10000 ∧
      extra_royalty_amount ((2 ^ 53 + 3 : Nat) : Int) 1 10000 = 2 ^ 53 + 4 := by
  constructor
  · with_unfolding_all decide
  · with_unfolding_all decide

/-- `pyfloor` is the floor of the rational value. -/
theorem pyfloor_eq_floor (x : ℚ) : pyfloor x = ⌊x⌋ := by
  rw [Rat.floor_def, pyfloor, Int.fdiv_eq_ediv _ (by exact_mod_cast Nat.zero_le x.den)]

theorem log2fuel_bracket : ∀ (f n : Nat), 1 ≤ n → n ≤ f →
    2 ^ log2fuel f n ≤ n ∧ n < 2 ^ (log2fuel f n + 1) := by
  intro f
  induction f with
  | zero => intro n h1 h2; omega
  | succ f ih =>
    intro n h1 h2
    by_cases h : 2 ≤ n
    · have hrec := ih (n / 2) (by omega) (by omega)
      rw [log2fuel, if_pos h]
      constructor
      · calc 2 ^ (log2fuel f (n / 2) + 1) = 2 * 2 ^ log2fuel f (n / 2) := by ring
          _ ≤ 2 * (n / 2) := by omega
          _ ≤ n := by omega
      · calc n < 2 * (n / 2) + 2 := by omega
          _ ≤ 2 * 2 ^ (log2fuel f (n / 2) + 1) := by omega
          _ = 2 ^ (log2fuel f (n / 2) + 1 + 1) := by ring
    · rw [log2fuel, if_neg h]
      omega

theorem natLog2_le (n : Nat) (h : 1 ≤ n) : 2 ^ natLog2 n ≤ n :=
  (log2fuel_bracket n n h (le_refl n)).1

theorem natLog2_lt (n : Nat) (h : 1 ≤ n) : n < 2 ^ (natLog2 n + 1) :=
  (log2fuel_bracket n n h (le_refl n)).2

/-- Rounding to nearest moves up by at most one quantum unit. -/
theorem roundHalfEven_le (num den : Nat) : roundHalfEven num den ≤ num / den + 1 := by
  unfold roundHalfEven
  split
  · omega
  · split
    · omega
    · split <;> omega

/-- Lower bracketing of the chosen exponent: `2 ^ floatExp ≤ a / b`
(expressed multiplicatively), in the non-negative-exponent case. -/
theorem floatExp_pow_le (a b : Nat) (ha : 1 ≤ a) (hb : 1 ≤ b) (he : 0 ≤ floatExp a b) :
    b * 2 ^ (floatExp a b).toNat ≤ a := by
  by_cases h : le2pow ((natLog2 a : Int) - natLog2 b) a b
  · rw [floatExp, if_pos h] at he ⊢
    rw [le2pow, if_pos he] at h
    exact of_decide_eq_true h
  · rw [floatExp, if_neg h] at he ⊢
    have hla : 2 ^ natLog2 a ≤ a := natLog2_le a ha
    have hlb : b < 2 ^ (natLog2 b + 1) := natLog2_lt b hb
    have hge : natLog2 b + 1 ≤ natLog2 a := by omega
    have ht : ((natLog2 a : Int) - natLog2 b - 1).toNat = natLog2 a - natLog2 b - 1 := by
      omega
    rw [ht]
    have hpow : 2 ^ (natLog2 b + 1) * 2 ^ (natLog2 a - natLog2 b - 1) = 2 ^ natLog2 a := by
      rw [← Nat.pow_add]
      congr 1
      omega
    have h1 : b * 2 ^ (natLog2 a - natLog2 b - 1) ≤
        (2 ^ (natLog2 b + 1) - 1) * 2 ^ (natLog2 a - natLog2 b - 1) :=
      Nat.mul_le_mul_right _ (by omega)
    have h2 : (2 ^ (natLog2 b + 1) - 1) * 2 ^ (natLog2 a - natLog2 b - 1) =
        2 ^ (natLog2 b + 1) * 2 ^ (natLog2 a - natLog2 b - 1) -
          2 ^ (natLog2 a - natLog2 b - 1) := by
      rw [Nat.sub_mul, Nat.one_mul]
    have h3 : (1 : Nat) ≤ 2 ^ (natLog2 a - natLog2 b - 1) := Nat.one_le_two_pow
    omega

theorem roundPosAux_nonneg (a b : Nat) : 0 ≤ roundPosAux a b := by
  unfold roundPosAux
  apply div_nonneg <;> exact_mod_cast Nat.zero_le _

/-- The crude upper bound `roundDouble x ≤ 2 x + 1`: rounding never leaves the
binade above (positive exponents), and moves by less than one below it. -/
theorem roundPosAux_le (a b : Nat) (ha : 1 ≤ a) (hb : 1 ≤ b) :
    roundPosAux a b ≤ 2 * ((a : ℚ) / (b : ℚ)) + 1 := by
  have hbq : (0 : ℚ) < (b : ℚ) := by exact_mod_cast hb
  have hxq : (0 : ℚ) ≤ (a : ℚ) / (b : ℚ) :=
    div_nonneg (by exact_mod_cast Nat.zero_le a) (le_of_lt hbq)
  unfold roundPosAux
  by_cases hk0 : 0 ≤ floatQuantum a b
  · have hK2 : (-floatQuantum a b).toNat = 0 := by omega
    have hke : floatQuantum a b = floatExp a b - 52 := by
      rw [floatQuantum] at hk0 ⊢
      omega
    have he0 : 0 ≤ floatExp a b := by omega
    have hEa : b * 2 ^ (floatExp a b).toNat ≤ a := floatExp_pow_le a b ha hb he0
    have hKE : (floatQuantum a b).toNat ≤ (floatExp a b).toNat := by omega
    have hpow2 : ((2 : ℚ)) ^ (floatQuantum a b).toNat ≤ (2 : ℚ) ^ (floatExp a b).toNat := by
      apply pow_le_pow_right₀ (by norm_num) hKE
    have hEx : ((2 : ℚ)) ^ (floatExp a b).toNat ≤ (a : ℚ) / (b : ℚ) := by
      rw [le_div_iff₀ hbq]
      calc ((2 : ℚ)) ^ (floatExp a b).toNat * (b : ℚ)
          = ((2 ^ (floatExp a b).toNat * b : Nat) : ℚ) := by push_cast; ring
        _ ≤ (a : ℚ) := by
            exact_mod_cast (by rw [Nat.mul_comm]; exact hEa :
              2 ^ (floatExp a b).toNat * b ≤ a)
    rw [hK2]
    simp only [pow_zero, Nat.mul_one, Nat.cast_one, div_one]
    have hm := roundHalfEven_le a (b * 2 ^ (floatQuantum a b).toNat)
    set den := b * 2 ^ (floatQuantum a b).toNat with hden
    have hdenpos : 0 < den := Nat.mul_pos (by omega) (Nat.two_pow_pos _)
    have hcast : ((a / den : Nat) : ℚ) ≤ (a : ℚ) / (den : ℚ) := Nat.cast_div_le
    have hdq : ((den : Nat) : ℚ) = (b : ℚ) * 2 ^ (floatQuantum a b).toNat := by
      rw [hden]; push_cast; ring
    calc ((roundHalfEven a den * 2 ^ (floatQuantum a b).toNat : Nat) : ℚ)
        ≤ (((a / den + 1) * 2 ^ (floatQuantum a b).toNat : Nat) : ℚ) := by
          exact_mod_cast Nat.mul_le_mul_right _ hm
      _ = ((a / den : Nat) : ℚ) * 2 ^ (floatQuantum a b).toNat +
            2 ^ (floatQuantum a b).toNat := by push_cast; ring
      _ ≤ (a : ℚ) / (den : ℚ) * 2 ^ (floatQuantum a b).toNat +
            2 ^ (floatQuantum a b).toNat := by
          have := mul_le_mul_of_nonneg_right hcast
            (le_of_lt (pow_pos (by norm_num : (0 : ℚ) < 2) (floatQuantum a b).toNat))
          linarith
      _ = (a : ℚ) / (b : ℚ) + 2 ^ (floatQuantum a b).toNat := by
          rw [hdq]
          have h2p : ((2 : ℚ)) ^ (floatQuantum a b).toNat ≠ 0 :=
            ne_of_gt (pow_pos (by norm_num) _)
          field_simp
          ring
      _ ≤ (a : ℚ) / (b : ℚ) + (a : ℚ) / (b : ℚ) := by
          have := le_trans hpow2 hEx
          linarith
      _ ≤ 2 * ((a : ℚ) / (b : ℚ)) + 1 := by linarith
  · have hK : (floatQuantum a b).toNat = 0 := by omega
    rw [hK]
    simp only [pow_zero, Nat.mul_one]
    set K2 := (-floatQuantum a b).toNat with hK2def
    have hm := roundHalfEven_le (a * 2 ^ K2) b
    have hP : (0 : ℚ) < ((2 ^ K2 : Nat) : ℚ) := by exact_mod_cast Nat.two_pow_pos K2
    have hcast : ((a * 2 ^ K2 / b : Nat) : ℚ) ≤ ((a * 2 ^ K2 : Nat) : ℚ) / (b : ℚ) :=
      Nat.cast_div_le
    rw [div_le_iff₀ hP]
    calc ((roundHalfEven (a * 2 ^ K2) b : Nat) : ℚ)
        ≤ ((a * 2 ^ K2 / b : Nat) : ℚ) + 1 := by exact_mod_cast hm
      _ ≤ ((a * 2 ^ K2 : Nat) : ℚ) / (b : ℚ) + 1 := by linarith
      _ = (a : ℚ) / (b : ℚ) * ((2 ^ K2 : Nat) : ℚ) + 1 := by push_cast; ring
      _ ≤ (2 * ((a : ℚ) / (b : ℚ)) + 1) * ((2 ^ K2 : Nat) : ℚ) := by
          have h1 : (1 : ℚ) ≤ ((2 ^ K2 : Nat) : ℚ) := by
            exact_mod_cast Nat.one_le_two_pow
          nlinarith

theorem roundDouble_nonneg (x : ℚ) (hx : 0 ≤ x) : 0 ≤ roundDouble x := by
  rw [roundDouble, if_neg (by exact not_lt.mpr (Rat.num_nonneg.mpr hx))]
  exact roundPosAux_nonneg _ _

theorem roundPosAux_zero (b : Nat) : roundPosAux 0 b = 0 := by
  unfold roundPosAux roundHalfEven
  simp only [Nat.zero_mul, Nat.zero_mod, Nat.zero_div, Nat.mul_zero]
  split
  · norm_num
  · split
    · omega
    · norm_num

theorem roundDouble_le (x : ℚ) (hx : 0 ≤ x) : roundDouble x ≤ 2 * x + 1 := by
  rw [roundDouble, if_neg (by exact not_lt.mpr (Rat.num_nonneg.mpr hx))]
  by_cases h0 : x.num = 0
  · rw [h0]
    simp only [Int.natAbs_zero, roundPosAux_zero]
    linarith
  · have hup : 1 ≤ x.num.natAbs := by omega
    have hden : 1 ≤ x.den := x.pos
    have hval : ((x.num.natAbs : ℚ)) / ((x.den : Nat) : ℚ) = x := by
      rw [show ((x.num.natAbs : Nat) : ℚ) = ((x.num : Int) : ℚ) by
        rw [Int.cast_natAbs]
        exact_mod_cast abs_of_nonneg (Rat.num_nonneg.mpr hx)]
      exact_mod_cast Rat.num_div_den x
    have := roundPosAux_le x.num.natAbs x.den hup hden
    rw [hval] at this
    exact this

theorem pyfloor_le (x : ℚ) : ((pyfloor x : Int) : ℚ) ≤ x := by
  rw [pyfloor_eq_floor]
  exact_mod_cast Int.floor_le x

theorem pyfloor_nonneg (x : ℚ) (hx : 0 ≤ x) : 0 ≤ pyfloor x := by
  rw [pyfloor_eq_floor]
  exact Int.floor_nonneg.mpr hx

theorem pyfloor_lt_of_lt (x : ℚ) (z : Int) (h : x < (z : ℚ)) : pyfloor x < z := by
  rw [pyfloor_eq_floor]
  exact Int.floor_lt.mpr h

/-- The float-computed royalty on a non-negative offer is non-negative. -/
theorem extra_royalty_amount_nonneg (A : Nat) (n pts : Nat) :
    0 ≤ extra_royalty_amount ((A : Nat) : Int) n pts := by
  unfold extra_royalty_amount fmulD fdivD
  have hx1 : (0 : ℚ) ≤ (((A : Nat) : Int) : ℚ) / ((n : Nat) : ℚ) :=
    div_nonneg (by positivity) (by positivity)
  have hd1 : (0 : ℚ) ≤ roundDouble ((((A : Nat) : Int) : ℚ) / ((n : Nat) : ℚ)) :=
    roundDouble_nonneg _ hx1
  have hq : 0 ≤ pyfloor (roundDouble ((((A : Nat) : Int) : ℚ) / ((n : Nat) : ℚ))) :=
    pyfloor_nonneg _ hd1
  have hd2 : (0 : ℚ) ≤ roundDouble
      ((pyfloor (roundDouble ((((A : Nat) : Int) : ℚ) / ((n : Nat) : ℚ))) : Int) : ℚ) :=
    roundDouble_nonneg _ (by exact_mod_cast hq)
  have hr : (0 : ℚ) ≤ roundDouble (((pts : Nat) : ℚ) / ((10000 : Nat) : ℚ)) :=
    roundDouble_nonneg _ (div_nonneg (by positivity) (by positivity))
  exact pyfloor_nonneg _ (roundDouble_nonneg _ (mul_nonneg hd2 hr))

/-- For offers below `2 ^ 53` and percentages at most `10000` the
float-computed royalty fits `uint64` (with generous slack: each of the four
roundings at most doubles-and-adds-one). -/
theorem extra_royalty_amount_lt (A n pts : Nat) (hpts : pts ≤ 10000) (hA : A < 2 ^ 53) :
    extra_royalty_amount ((A : Nat) : Int) n pts < 2 ^ 64 := by
  unfold extra_royalty_amount fmulD fdivD
  have hAq : ((A : Nat) : ℚ) < 2 ^ 53 := by exact_mod_cast hA
  have hx1n : (0 : ℚ) ≤ (((A : Nat) : Int) : ℚ) / ((n : Nat) : ℚ) :=
    div_nonneg (by positivity) (by positivity)
  have hx1A : (((A : Nat) : Int) : ℚ) / ((n : Nat) : ℚ) ≤ ((A : Nat) : ℚ) := by
    rcases Nat.eq_zero_or_pos n with hn | hn
    · rw [hn]
      norm_num
    · have h1 : (1 : ℚ) ≤ ((n : Nat) : ℚ) := by exact_mod_cast hn
      calc (((A : Nat) : Int) : ℚ) / ((n : Nat) : ℚ)
          = ((A : Nat) : ℚ) / ((n : Nat) : ℚ) := by push_cast; ring_nf
        _ ≤ ((A : Nat) : ℚ) := div_le_self (by positivity) h1
  have hd1n : (0 : ℚ) ≤ roundDouble ((((A : Nat) : Int) : ℚ) / ((n : Nat) : ℚ)) :=
    roundDouble_nonneg _ hx1n
  have hd1 : roundDouble ((((A : Nat) : Int) : ℚ) / ((n : Nat) : ℚ)) ≤
      2 * ((A : Nat) : ℚ) + 1 := by
    have := roundDouble_le _ hx1n
    linarith
  set q := pyfloor (roundDouble ((((A : Nat) : Int) : ℚ) / ((n : Nat) : ℚ))) with hqdef
  have hqn : 0 ≤ q := pyfloor_nonneg _ hd1n
  have hqA : ((q : Int) : ℚ) ≤ 2 * ((A : Nat) : ℚ) + 1 := le_trans (pyfloor_le _) hd1
  have hd2n : (0 : ℚ) ≤ roundDouble ((q : Int) : ℚ) :=
    roundDouble_nonneg _ (by exact_mod_cast hqn)
  have hd2 : roundDouble ((q : Int) : ℚ) ≤ 4 * ((A : Nat) : ℚ) + 3 := by
    have := roundDouble_le ((q : Int) : ℚ) (by exact_mod_cast hqn)
    linarith
  have hrn : (0 : ℚ) ≤ roundDouble (((pts : Nat) : ℚ) / ((10000 : Nat) : ℚ)) :=
    roundDouble_nonneg _ (div_nonneg (by positivity) (by positivity))
  have hr3 : roundDouble (((pts : Nat) : ℚ) / ((10000 : Nat) : ℚ)) ≤ 3 := by
    have hx : ((pts : Nat) : ℚ) / ((10000 : Nat) : ℚ) ≤ 1 := by
      rw [div_le_one (by norm_num)]
      exact_mod_cast hpts
    have hx0 : (0 : ℚ) ≤ ((pts : Nat) : ℚ) / ((10000 : Nat) : ℚ) :=
      div_nonneg (by positivity) (by positivity)
    have := roundDouble_le _ hx0
    linarith
  have hpn : (0 : ℚ) ≤ roundDouble ((q : Int) : ℚ) *
      roundDouble (((pts : Nat) : ℚ) / ((10000 : Nat) : ℚ)) := mul_nonneg hd2n hrn
  have hp : roundDouble ((q : Int) : ℚ) *
      roundDouble (((pts : Nat) : ℚ) / ((10000 : Nat) : ℚ)) ≤
        12 * ((A : Nat) : ℚ) + 9 := by
    calc roundDouble ((q : Int) : ℚ) * roundDouble (((pts : Nat) : ℚ) / ((10000 : Nat) : ℚ))
        ≤ (4 * ((A : Nat) : ℚ) + 3) * 3 := by
          apply mul_le_mul hd2 hr3 hrn
          positivity
      _ = 12 * ((A : Nat) : ℚ) + 9 := by ring
  have hd3 : roundDouble (roundDouble ((q : Int) : ℚ) *
      roundDouble (((pts : Nat) : ℚ) / ((10000 : Nat) : ℚ))) ≤
        24 * ((A : Nat) : ℚ) + 19 := by
    have := roundDouble_le _ hpn
    linarith
  apply pyfloor_lt_of_lt
  calc roundDouble (roundDouble ((q : Int) : ℚ) *
      roundDouble (((pts : Nat) : ℚ) / ((10000 : Nat) : ℚ))) ≤
        24 * ((A : Nat) : ℚ) + 19 := hd3
    _ < ((2 ^ 64 : Int) : ℚ) := by
      push_cast
      linarith

/-- Driver lookup `driver_dict[asset]` (raises `KeyError` when absent).  The
keys are `Option Nat`: the native asset's `None` can end up as a key at
runtime even though the declared type is `Dict[bytes32, PuzzleInfo]`. -/
def lookupDriver (a : Option Nat) (driver_dict : List (Option Nat × SV)) : Except PyErr SVDict :=
  match driver_dict.find? (fun p => p.1 = a) with
  | some (_, .dict d) => .ok d
  | some _ => .error .typeError
  | none => .error .keyError

/-- Reduction helpers for the `Except` monad. -/
theorem ok_bind {e : Type} {a b : Type} (x : a) (f : a → Except e b) :
    (Except.ok x >>= f) = f x := rfl

theorem pure_ok {e : Type} {a : Type} (x : a) : (pure x : Except e a) = Except.ok x := rfl

/-- The body of the royalty loop: look up the asset's driver, walk to the
ownership layer (`driver_dict[asset_id].also().also()`, where a missing first
layer is an `AttributeError` and a missing second the failed `isinstance`
assertion), read the transfer program's royalty address and percentage, and
build the payment `Payment(address, uint64(extra_royalty_amount), [address])`
with the amount computed in Python float arithmetic (`extra_royalty_amount`). -/
def royalty_payment_body (offered_amount : Int) (n : Nat)
    (driver_dict : List (Option Nat × SV)) (a : Nat) : Except PyErr PaymentR := do
  let d ← lookupDriver (some a) driver_dict
  let ti ← match svAlso d with
    | none => throw PyErr.attributeError
    | some x => pure x
  let transfer_info ← match svAlso ti with
    | none => throw PyErr.assertionError
    | some x => pure x
  let tp ← match lookupKey "transfer_program" transfer_info with
    | some (.dict t) => pure t
    | some _ => Except.error PyErr.typeError
    | none => throw PyErr.keyError
  let address ← match lookupKey "royalty_address" tp with
    | some (.int x) => pure x
    | some _ => Except.error PyErr.typeError
    | none => throw PyErr.keyError
  let ptsRaw ← match lookupKey "royalty_percentage" tp with
    | some (.int x) => pure x
    | some _ => Except.error PyErr.typeError
    | none => throw PyErr.keyError
  let pts ← uint16 ptsRaw
  let amt ← uint64 (extra_royalty_amount offered_amount n pts)
  pure ⟨address, amt, [address]⟩

/-- `calculate_royalty_payments(requested_assets, offered_amount, driver_dict)`:
collects the royalty-enabled NFTs (`check_type` of
singleton + metadata + ownership) among the requested assets, then pays each
one `floor(floor(offered_amount / n) * pts / 10000)` to the transfer program's
royalty address, with that address as the sole memo. -/
def calculate_royalty_payments (requested_assets : List (Option Nat × Int))
    (offered_amount : Int) (driver_dict : List (Option Nat × SV)) :
    Except PyErr (List PaymentR) := do
  let royalty_nft_assets ← requested_assets.foldlM
    (fun (acc : List Nat) kv =>
      match kv.1 with
      | none => pure acc
      | some a => do
        let d ← lookupDriver (some a) driver_dict
        pure (if check_type d [typeSINGLETON, typeMETADATA, typeOWNERSHIP] then
          acc ++ [a] else acc))
    []
  royalty_nft_assets.foldlM
    (fun (acc : List PaymentR) a => do
      let p ← royalty_payment_body offered_amount royalty_nft_assets.length driver_dict a
      pure (acc ++ [p]))
    []

/-! ### The canonical royalty-enabled NFT driver
(the singleton + metadata + ownership stack of a provenant NFT, with the
transfer program's configured royalty address and percentage). -/

def ownershipD (addr pct : Int) : SVDict :=
  [("type", .str typeOWNERSHIP),
    ("transfer_program",
      .dict [("royalty_address", .int addr), ("royalty_percentage", .int pct)])]

def metadataD (addr pct : Int) : SVDict :=
  [("type", .str typeMETADATA), ("also", .dict (ownershipD addr pct))]

def nftDriverD (addr pct : Int) : SVDict :=
  [("type", .str typeSINGLETON), ("also", .dict (metadataD addr pct))]

def nftDriver (addr pct : Int) : SV := .dict (nftDriverD addr pct)

theorem chainTypes_nftDriverD (addr pct : Int) :
    chainTypes (nftDriverD addr pct) = [typeSINGLETON, typeMETADATA, typeOWNERSHIP] := rfl

theorem check_type_nftDriverD (addr pct : Int) :
    check_type (nftDriverD addr pct) [typeSINGLETON, typeMETADATA, typeOWNERSHIP] = true := rfl

theorem lookupDriver_map {addrF : Nat → Int} {pct : Int} :
    ∀ (assets : List Nat) (a : Nat), a ∈ assets →
      lookupDriver (some a) (assets.map fun a => ((some a : Option Nat), nftDriver (addrF a) pct)) =
        .ok (nftDriverD (addrF a) pct) := by
  intro assets
  induction assets with
  | nil => intro a ha; cases ha
  | cons b rest ih =>
    intro a ha
    by_cases hb : b = a
    · subst hb
      simp [lookupDriver, nftDriver]
    · rcases List.mem_cons.mp ha with h | h
      · exact absurd h.symm hb
      · have := ih a h
        simp only [lookupDriver, List.map_cons] at this ⊢
        rw [List.find?_cons_of_neg]
        · exact this
        · simp [hb]

theorem uint16_cast (pct : Nat) (h : pct < 65536) : uint16 (pct : Int) = .ok pct := by
  unfold uint16
  rw [if_pos]
  · rw [Int.toNat_natCast]
  · exact ⟨Int.natCast_nonneg pct, by exact_mod_cast h⟩

theorem uint64_cast (v : Nat) (h : v < 2 ^ 64) : uint64 (v : Int) = .ok v := by
  unfold uint64
  rw [if_pos]
  · rw [Int.toNat_natCast]
  · exact ⟨Int.natCast_nonneg v, by exact_mod_cast h⟩

theorem uint64_ok (v : Int) (h0 : 0 ≤ v) (h : v < 2 ^ 64) : uint64 v = .ok v.toNat := by
  unfold uint64
  rw [if_pos ⟨h0, h⟩]

/-- `royalty_payment_body` on the canonical NFT driver reduces to the two
range-checked conversions. -/
theorem royalty_payment_body_reduce (dd : List (Option Nat × SV)) (a : Nat) (addr p A : Int)
    (n : Nat) (hl : lookupDriver (some a) dd = .ok (nftDriverD addr p)) :
    royalty_payment_body A n dd a = (do
      let pts ← uint16 p
      let amt ← uint64 (extra_royalty_amount A n pts)
      pure ⟨addr, amt, [addr]⟩) := by
  unfold royalty_payment_body
  rw [hl]
  rfl

/-- Evaluation of the royalty loop body on the canonical NFT driver. -/
theorem royalty_payment_body_eval (dd : List (Option Nat × SV)) (a : Nat) (addr : Int)
    (A pct n : Nat) (hpct16 : pct < 65536)
    (hamt : extra_royalty_amount ((A : Nat) : Int) n pct < 2 ^ 64)
    (hl : lookupDriver (some a) dd = .ok (nftDriverD addr (pct : Int))) :
    royalty_payment_body (A : Int) n dd a = .ok ⟨addr, royaltyAmt A n pct, [addr]⟩ := by
  rw [royalty_payment_body_reduce dd a addr (pct : Int) (A : Int) n hl]
  rw [show (do
      let pts ← uint16 (pct : Int)
      let amt ← uint64 (extra_royalty_amount (A : Int) n pts)
      pure ⟨addr, amt, [addr]⟩ : Except PyErr PaymentR) =
    (uint16 (pct : Int) >>= fun pts =>
      uint64 (extra_royalty_amount (A : Int) n pts) >>= fun amt =>
      pure ⟨addr, amt, [addr]⟩) from rfl]
  rw [uint16_cast pct hpct16, ok_bind]
  rw [uint64_ok _ (extra_royalty_amount_nonneg A n pct) hamt, ok_bind]
  rfl

theorem royalty_fold1 (dd : List (Option Nat × SV)) (addrF : Nat → Int) (pct : Int)
    (amts : Nat → Int) :
    ∀ (l : List Nat), (∀ a ∈ l, lookupDriver (some a) dd = .ok (nftDriverD (addrF a) pct)) →
      ∀ (acc : List Nat),
        (l.map fun a => ((some a : Option Nat), amts a)).foldlM
          (fun (acc : List Nat) kv =>
            match kv.1 with
            | none => pure acc
            | some a => do
              let d ← lookupDriver (some a) dd
              pure (if check_type d [typeSINGLETON, typeMETADATA, typeOWNERSHIP] then
                acc ++ [a] else acc))
          acc = .ok (acc ++ l) := by
  intro l
  induction l with
  | nil => intro _ acc; simp [pure_ok]
  | cons b rest ih =>
    intro h acc
    have hb := h b (List.mem_cons_self b rest)
    simp only [List.map_cons, List.foldlM_cons, hb, ok_bind, pure_ok,
      check_type_nftDriverD, if_pos]
    have := ih (fun a ha => h a (List.mem_cons_of_mem b ha)) (acc ++ [b])
    simpa using this

/-- Folding the per-asset payment builder over a list, given that the body
succeeds pointwise. -/
theorem foldlM_payment_append (f : Nat → Except PyErr PaymentR) (g : Nat → PaymentR) :
    ∀ (l : List Nat), (∀ a ∈ l, f a = .ok (g a)) → ∀ (acc : List PaymentR),
      l.foldlM (fun (acc : List PaymentR) a => do
        let p ← f a
        pure (acc ++ [p])) acc = .ok (acc ++ l.map g) := by
  intro l
  induction l with
  | nil => intro _ acc; simp [pure_ok]
  | cons b rest ih =>
    intro h acc
    have hb := h b (List.mem_cons_self b rest)
    simp only [List.foldlM_cons, hb, ok_bind, pure_ok]
    have := ih (fun a ha => h a (List.mem_cons_of_mem b ha)) (acc ++ [g b])
    simpa using this

/-- **C2 (amended).** For every offered amount `A < 2^53`, every non-empty list
of requested royalty-enabled NFT assets (singleton + metadata + ownership
stack), and every uniform royalty percentage `pct ≤ 10000`,
`calculate_royalty_payments` pays each royalty NFT exactly
`floor(floor(A / n) · (pct / 10000))` computed in Python float (binary64)
arithmetic (one payment per NFT, `n` the number of royalty NFTs), to the
transfer program's royalty address, with that address as payee and sole memo;
the amounts are equal across the NFTs and the total equals `n` times the
per-NFT amount; each payment is non-negative.  (The original claim's exact
integer formula and its "each payment ≤ A" clause are both refuted: see
`calculate_royalty_payments_counterexample` for a `pct > 10000` payment of
`2 A`, and `extra_royalty_amount_rounds_to_even` /
`extra_royalty_amount_can_exceed_offer` for float-rounding divergences, the
latter exceeding `A` at `pct = 10000`.) -/
theorem calculate_royalty_payments_spec (assets : List Nat) (addrF : Nat → Int)
    (amts : Nat → Int) (A pct : Nat) (hne : assets ≠ []) (hpct : pct ≤ 10000)
    (hA : A < 2 ^ 53) :
    calculate_royalty_payments (assets.map fun a => ((some a : Option Nat), amts a)) (A : Int)
        (assets.map fun a => ((some a : Option Nat), nftDriver (addrF a) (pct : Int))) =
      .ok (assets.map fun a =>
        (⟨addrF a, royaltyAmt A assets.length pct, [addrF a]⟩ : PaymentR)) ∧
    ((royaltyAmt A assets.length pct : Nat) : Int) =
      extra_royalty_amount (A : Int) assets.length pct ∧
    ((assets.map fun a =>
        (⟨addrF a, royaltyAmt A assets.length pct, [addrF a]⟩ : PaymentR)).map
      PaymentR.amount).sum = assets.length * royaltyAmt A assets.length pct := by
  have _hne := hne
  have hlook : ∀ a ∈ assets,
      lookupDriver (some a)
          (assets.map fun a => ((some a : Option Nat), nftDriver (addrF a) (pct : Int))) =
        .ok (nftDriverD (addrF a) (pct : Int)) :=
    fun a ha => lookupDriver_map assets a ha
  refine ⟨?_, Int.toNat_of_nonneg (extra_royalty_amount_nonneg A assets.length pct), ?_⟩
  · unfold calculate_royalty_payments
    rw [royalty_fold1 (assets.map fun a => ((some a : Option Nat), nftDriver (addrF a) (pct : Int)))
      addrF (pct : Int) amts assets hlook [], ok_bind]
    simp only [List.nil_append]
    have := foldlM_payment_append
      (fun a => royalty_payment_body ((A : Nat) : Int) assets.length
        (assets.map fun a => ((some a : Option Nat), nftDriver (addrF a) (pct : Int))) a)
      (fun a => (⟨addrF a, royaltyAmt A assets.length pct, [addrF a]⟩ : PaymentR))
      assets
      (fun a ha => royalty_payment_body_eval _ a (addrF a)
        A pct assets.length (lt_of_le_of_lt hpct (by norm_num))
        (extra_royalty_amount_lt A assets.length pct hpct hA) (hlook a ha)) []
    simpa using this
  · have hmap : (assets.map fun a =>
        (⟨addrF a, royaltyAmt A assets.length pct, [addrF a]⟩ : PaymentR)).map
          PaymentR.amount = assets.map fun _ => royaltyAmt A assets.length pct := by
      rw [List.map_map]
      rfl
    rw [hmap, List.map_const', List.sum_replicate, smul_eq_mul]

/-- Witness for `calculate_royalty_payments_spec`: two royalty NFTs, offered
amount 10001, five-percent royalty (`pct = 500`): each payment is 250 (here the
float computation agrees with `floor(floor(10001/2) * 500/10000) = 250`). -/
theorem calculate_royalty_payments_spec_witness :
    calculate_royalty_payments [(some 11, 1), (some 12, 1)] ((10001 : Nat) : Int)
        [(some 11, nftDriver 77 ((500 : Nat) : Int)), (some 12, nftDriver 88 ((500 : Nat) : Int))] =
      .ok [⟨77, 250, [77]⟩, ⟨88, 250, [88]⟩] := by
  have h := (calculate_royalty_payments_spec [11, 12]
    (fun a => if a = 11 then 77 else 88) (fun _ => 1) 10001 500
    (by decide) (by decide) (by decide)).1
  have hamt : royaltyAmt 10001 2 500 = 250 := by with_unfolding_all decide
  simp only [List.map_cons, List.map_nil, List.length_cons, List.length_nil] at h
  norm_num at h ⊢
  rw [hamt] at h
  exact h

/-- **C2 counterexample.** The claim quantifies over *every* royalty
percentage; with `pct = 20000` (twice the denominator, accepted by `uint16`),
one royalty NFT and offered amount `A = 10000`, the single payment is
`floor(floor(10000/1) * 20000/10000) = 20000 > A`; every intermediate value
here is exactly representable in binary64, so the float computation yields the
same amount as the exact formula. -/
theorem calculate_royalty_payments_counterexample :
    calculate_royalty_payments [(some 1, 5)] ((10000 : Nat) : Int)
        [(some 1, nftDriver 9 ((20000 : Nat) : Int))] = .ok [⟨9, 20000, [9]⟩] ∧
    ¬ ((20000 : Nat) ≤ 10000) := by
  constructor
  · with_unfolding_all rfl
  · decide

/-! ## CLVM programs, coin spends and bundles

`Program` (`chia.types.blockchain_format.program`) is a binary cons tree with
byte-string atoms.  Its serialization, tree hashing, currying and integer
encodings are external collaborators of the core (spec §1/§6) and appear as
fields of `ActionEnv` below. -/

inductive Prog where
  | atom : List Nat → Prog
  | cons : Prog → Prog → Prog
deriving DecidableEq, Repr

/-- `Program.to(None)` / the empty list: the nil atom. -/
def Prog.nil : Prog := .atom []

/-- `Program.to([x1, ..., xn])`: a right-nested cons list ending in nil. -/
def Prog.ofList : List Prog → Prog
  | [] => .atom []
  | x :: xs => .cons x (Prog.ofList xs)

/-- `Program.first()`: raises on an atom. -/
def Prog.firstE : Prog → Except PyErr Prog
  | .cons a _ => .ok a
  | .atom _ => .error .valueError

/-- `Program.at(path)` for a path of `'f'`/`'r'` characters; raises on an atom. -/
def Prog.atPath : Prog → List Char → Except PyErr Prog
  | p, [] => .ok p
  | .cons a _, 'f' :: rest => Prog.atPath a rest
  | .cons _ b, 'r' :: rest => Prog.atPath b rest
  | _, _ => .error .valueError

/-- `Program.as_iter()`: the elements of a cons list (stops at the terminator). -/
def Prog.asList : Prog → List Prog
  | .atom _ => []
  | .cons a b => a :: b.asList

/-- `chia.types.coin_spend.CoinSpend`. -/
structure CoinSpend where
  coin : Coin
  puzzle_reveal : Prog
  solution : Prog
deriving DecidableEq, Repr

/-- `chia.types.spend_bundle.SpendBundle` (the aggregated BLS signature is an
opaque value). -/
structure SpendBundle where
  coin_spends : List CoinSpend
  aggregated_signature : Nat
deriving DecidableEq, Repr

/-- Python `bytes.find`: the smallest offset where `needle` occurs in `hay`,
`-1` when absent. -/
def listPrefix : List Nat → List Nat → Bool
  | [], _ => true
  | _ :: _, [] => false
  | a :: as, b :: bs => a = b && listPrefix as bs

def bytesFind (hay needle : List Nat) : Int :=
  match (List.range (hay.length + 1)).find? (fun i => listPrefix needle (hay.drop i)) with
  | some i => (i : Int)
  | none => -1

/-- Python `b[start:]` slicing, including the negative-index convention. -/
def pySliceFrom (b : List Nat) (start : Int) : List Nat :=
  if 0 ≤ start then b.drop start.toNat else b.drop (((b.length : Int) + start).toNat)

/-! ## Action aliases (`chia.wallet.trading.action_aliases`, modelled from the
spec §4.2: each variant has a stable name discriminant and lossless
`to_solver`/`from_solver`).  `RequestPayment` carries its asset-type stack as
solver values, an optional nonce (a 32-byte id, modelled as `Nat`) and a
payment list; `RequireDLInclusion` carries launcher ids and values to prove. -/

inductive WalletAction where
  | requestPayment (asset_types : List SV) (nonce : Option Nat) (payments : List PaymentR)
  | requireDLInclusion (launcher_ids : List Nat) (values_to_prove : List (List Nat))
  | other (tag : String) (payload : SV)

/-- The stable action-name discriminant. -/
def WalletAction.name : WalletAction → String
  | .requestPayment _ _ _ => "request_payment"
  | .requireDLInclusion _ _ => "require_dl_inclusion"
  | .other tag _ => tag

/-- Modelled from the spec: `Payment` rendered into a solver map. -/
def paymentToSolver (p : PaymentR) : SV :=
  .dict [("puzhash", .str (hexKey p.address.toNat)),
    ("amount", .str (toString p.amount)),
    ("memos", .list (p.memos.map (fun m => .str (hexKey m.toNat))))]

/-- Modelled from the spec: each action's `to_solver` serialization. -/
def WalletAction.to_solver : WalletAction → SV
  | .requestPayment ats nonce pays =>
    .dict ([("type", .str "request_payment"), ("asset_types", .list ats)] ++
      (match nonce with
        | some n => [("nonce", .str (hexKey n))]
        | none => []) ++
      [("payments", .list (pays.map paymentToSolver))])
  | .requireDLInclusion lids vals =>
    .dict [("type", .str "require_dl_inclusion"),
      ("launcher_ids", .list (lids.map (fun l => .str (hexKey l)))),
      ("values_to_prove", .list (vals.map (fun vs => .list (vs.map (fun v => .str (hexKey v))))))]
  | .other _ payload => payload

/-- `CoinInfo` (`chia.wallet.action_manager.coin_info`, not part of the core
sources): the per-coin driver object returned by a matcher, exposing
`alias_actions` and `create_spend_for_actions`.  Both are opaque collaborators
here. -/
structure CoinInfo where
  alias_actions : List WalletAction → List String → List WalletAction
  create_spend_for_actions : List SV → List String → Except PyErr (List SV × CoinSpend)

/-- An outer wallet's `match_spend(wallet_state_manager, spend, mod,
curried_args)`: `None` when the wallet does not recognise the puzzle. -/
structure OuterWallet where
  match_spend : CoinSpend → Prog → Prog → Option (CoinInfo × List WalletAction × Nat)

/-- The wallet-state-manager surface plus the external CLVM/BLS collaborators
(§6) consumed by the lowering and parsing engines. -/
structure ActionEnv where
  outer_wallets : List OuterWallet
  action_aliases : List String
  uncurry : Prog → Prog × Prog
  tree_hash : Prog → Nat
  serialize : Prog → List Nat
  prog_from_bytes : List Nat → Except PyErr Prog
  offer_mod : Prog
  graftroot_dl_offers : Prog
  create_host_fullpuz : Prog → Nat → Nat → Prog
  build_environment : SV → SV → SV → Prog → Prog
  castProgram : SV → Prog
  toProgStr : String → Prog
  toProgInt : Int → Prog
  toProgBytes32 : Nat → Prog
  atom_to_bytes32 : Prog → Except PyErr Nat
  announcement_name : Nat → Nat → List Nat
  payment_as_condition_args : PaymentR → Prog
  payment_from_condition : Prog → Except PyErr PaymentR
  de_alias : WalletAction → Prog × Prog × Prog
  solution_for_delegated_puzzle : Prog → Prog → Prog

/-! ## `request_payment_to_legacy_encoding` (lines 364-392) -/

/-- Solver key access `typ[k]` (raises `KeyError` when absent). -/
def svGet (typ : SV) (k : String) : Except PyErr SV :=
  match typ with
  | .dict d =>
    match lookupKey k d with
    | some v => .ok v
    | none => .error .keyError
  | _ => .error .typeError

/-- Builds the dummy carrier spend that legacy tooling expects for a requested
payment: the offer module wrapped once per asset-type layer
(`Program.to([2, (1, typ["mod"]), build_environment(...)])`), spent by a
zero-parent zero-amount coin whose solution carries the nonce and the payment
condition args. -/
def request_payment_to_legacy_encoding (env : ActionEnv) (asset_types : List SV)
    (nonce : Option Nat) (payments : List PaymentR) (add_nonce : Option Nat) :
    Except PyErr CoinSpend := do
  let puzzle_reveal ← asset_types.foldlM
    (fun puzzle_reveal typ => do
      let m ← svGet typ "mod"
      let st ← svGet typ "solution_template"
      let ca ← svGet typ "committed_args"
      pure (Prog.ofList [env.toProgInt 2,
        .cons (env.toProgInt 1) (env.castProgram m),
        env.build_environment st ca ca puzzle_reveal]))
    env.offer_mod
  let nonceProg := match (if add_nonce.isNone ∨ nonce.isSome then nonce else add_nonce) with
    | some n => env.toProgBytes32 n
    | none => Prog.nil
  let dummy_solution := Prog.ofList
    [.cons nonceProg (Prog.ofList (payments.map env.payment_as_condition_args))]
  pure (CoinSpend.mk ⟨0, env.tree_hash puzzle_reveal, 0⟩ puzzle_reveal dummy_solution)

/-! ## `spend_to_offer_bytes` (lines 395-465) -/

/-- Step 2 of the lowering loop: every outer wallet that claims to identify the
spend's (uncurried) puzzle. -/
def matchesOf (env : ActionEnv) (spend : CoinSpend) :
    List (CoinInfo × List WalletAction × Nat) :=
  let mc := env.uncurry spend.puzzle_reveal
  env.outer_wallets.filterMap (fun w => w.match_spend spend mc.1 mc.2)

/-- Steps 4-5: partition the aliased actions into DL-graftroot actions (kept
last) and all others, synthesising a dummy carrier spend per
requested-payment action and per DL launcher id; an action whose name claims a
special alias but whose object lacks its fields raises (attribute access). -/
def actionLoop (env : ActionEnv) (actions : List WalletAction) :
    Except PyErr (List SV × List SV × List CoinSpend) :=
  actions.foldlM
    (fun (st : List SV × List SV × List CoinSpend) action => do
      let (dls, others, dummies) := st
      if action.name = "require_dl_inclusion" then
        match action with
        | .requireDLInclusion launcher_ids _ =>
          let newDummies := launcher_ids.map (fun launcher_id =>
            let puzzle_reveal := env.create_host_fullpuz env.offer_mod 0 launcher_id
            let dummy_solution := Prog.ofList
              [.cons (env.toProgBytes32 0)
                (Prog.ofList [Prog.ofList
                  [env.toProgBytes32 0, env.toProgInt 1, Prog.ofList []]])]
            CoinSpend.mk ⟨0, env.tree_hash puzzle_reveal, 0⟩ puzzle_reveal dummy_solution)
          pure (dls ++ [action.to_solver], others, dummies ++ newDummies)
        | _ => throw PyErr.attributeError
      else
        if action.name = "request_payment" then
          match action with
          | .requestPayment ats nonce pays => do
            let dummy ← request_payment_to_legacy_encoding env ats nonce pays none
            pure (dls, others ++ [action.to_solver], dummies ++ [dummy])
          | _ => throw PyErr.attributeError
        else
          pure (dls, others ++ [action.to_solver], dummies))
    ([], [], [])

/-- Steps 3-6 for one uniquely-matched spend: alias the actions, partition and
reorder them (DL graftroots last), reject more than one DL graftroot, build the
spend, rewrite the delegated-solution slot of a graftroot solution
(`Program.to(None)`, or five empty slots when a DL inclusion is present), and
reject any remaining unconsumed action. -/
def processMatchedSpend (env : ActionEnv) (info : CoinInfo)
    (actions0 : List WalletAction) : Except PyErr (List CoinSpend) := do
  let actions := info.alias_actions actions0 env.action_aliases
  let (dls, others, dummies) ← actionLoop env actions
  if dls.length > 1 then throw PyErr.valueError
  else do
    let sorted_actions := others ++ dls
    let (remaining_actions, spend) ← info.create_spend_for_actions sorted_actions
      env.action_aliases
    let spend_solution ← spend.solution.atPath ['r', 'r', 'f']
    let spend' ←
      match spend_solution with
      | .atom _ => pure spend
      | .cons f _ =>
        if f = env.toProgStr "graftroot" then do
          let new_delegated_solution := if dls.isEmpty then Prog.nil
            else Prog.ofList [Prog.nil, Prog.nil, Prog.nil, Prog.nil, Prog.nil]
          let s1 ← spend.solution.firstE
          let s2 ← spend.solution.atPath ['r', 'f']
          pure { spend with solution := Prog.ofList [s1, s2, new_delegated_solution] }
        else pure spend
    if remaining_actions.length > 0 then throw PyErr.valueError
    else pure (dummies ++ [spend'])

/-- The per-spend body of the lowering loop: skip on zero matches, raise on an
ambiguous match, lower on a unique match. -/
def lowerStep (env : ActionEnv) (acc : List CoinSpend) (spend : CoinSpend) :
    Except PyErr (List CoinSpend) :=
  match matchesOf env spend with
  | [] => pure acc
  | [m] => do
    let ns ← processMatchedSpend env m.1 m.2.1
    pure (acc ++ ns)
  | _ => throw PyErr.valueError

/-- `spend_to_offer_bytes(wallet_state_manager, bundle)`: per spend, zero
matchers means the spend is skipped, more than one is a hard error, exactly one
is lowered via `processMatchedSpend`.  The Python function returns the
serialized bytes of the resulting bundle; serialization is an external
collaborator, so the model returns the bundle itself. -/
def spend_to_offer_bytes (env : ActionEnv) (bundle : SpendBundle) :
    Except PyErr SpendBundle := do
  let new_spends ← bundle.coin_spends.foldlM (lowerStep env) []
  pure ⟨new_spends, bundle.aggregated_signature⟩

/-! ### Lowering-loop lemmas and the C1/C6 theorems -/

theorem isError_bind {a b : Type} (x : Except PyErr a) (f : a → Except PyErr b)
    (h : isError x = true) : isError (x >>= f) = true := by
  cases x with
  | error e => rfl
  | ok v => simp [isError] at h

theorem foldlM_lowerStep_allUnmatched (env : ActionEnv) :
    ∀ (l : List CoinSpend), (∀ s ∈ l, matchesOf env s = []) →
      ∀ (acc : List CoinSpend), l.foldlM (lowerStep env) acc = .ok acc := by
  intro l
  induction l with
  | nil => intro _ acc; rfl
  | cons b rest ih =>
    intro h acc
    have hb := h b (List.mem_cons_self b rest)
    simp only [List.foldlM_cons]
    rw [show lowerStep env acc b = pure acc by rw [lowerStep, hb]]
    exact ih (fun s hs => h s (List.mem_cons_of_mem b hs)) acc

/-- A spend whose lowering step necessarily raises: a unique match whose
processing raises, or an ambiguous (two-or-more) match. -/
def spendStepFails (env : ActionEnv) (s : CoinSpend) : Prop :=
  match matchesOf env s with
  | [] => False
  | [m] => isError (processMatchedSpend env m.1 m.2.1) = true
  | _ => True

theorem lowerStep_fails (env : ActionEnv) (s : CoinSpend) (hf : spendStepFails env s) :
    ∀ (acc : List CoinSpend), isError (lowerStep env acc s) = true := by
  intro acc
  unfold spendStepFails at hf
  unfold lowerStep
  cases hm : matchesOf env s with
  | nil => rw [hm] at hf; exact absurd hf not_false
  | cons m rest =>
    cases rest with
    | nil =>
      rw [hm] at hf
      exact isError_bind _ _ hf
    | cons m2 rest2 => rfl

theorem foldlM_lowerStep_fails (env : ActionEnv) :
    ∀ (l : List CoinSpend) (s : CoinSpend), s ∈ l → spendStepFails env s →
      ∀ (acc : List CoinSpend), isError (l.foldlM (lowerStep env) acc) = true := by
  intro l
  induction l with
  | nil => intro s hs; cases hs
  | cons b rest ih =>
    intro s hs hf acc
    simp only [List.foldlM_cons]
    rcases List.mem_cons.mp hs with rfl | hs'
    · exact isError_bind _ _ (lowerStep_fails env s hf acc)
    · cases hstep : lowerStep env acc b with
      | error e => rfl
      | ok acc' =>
        have := ih s hs' hf acc'
        simpa [hstep] using this

theorem isError_spend_to_offer (env : ActionEnv) (b : SpendBundle)
    (h : isError (b.coin_spends.foldlM (lowerStep env) []) = true) :
    isError (spend_to_offer_bytes env b) = true := by
  unfold spend_to_offer_bytes
  exact isError_bind _ _ h

/-- **C1 (amended).** Exactly-one-matcher discipline of `spend_to_offer_bytes`:
a spend claimed by *zero* matchers is silently **omitted** from the resulting
offer (not passed through — dropped, per the `continue` that skips it), and a
spend claimed by two or more matchers always raises a `ValueError`, never
silently picking one interpretation. -/
theorem spend_to_offer_bytes_match_discipline :
    (∀ (env : ActionEnv) (b : SpendBundle),
      (∀ s ∈ b.coin_spends, matchesOf env s = []) →
        spend_to_offer_bytes env b = .ok ⟨[], b.aggregated_signature⟩) ∧
    (∀ (env : ActionEnv) (b : SpendBundle) (s : CoinSpend),
      s ∈ b.coin_spends → 2 ≤ (matchesOf env s).length →
        isError (spend_to_offer_bytes env b) = true) := by
  constructor
  · intro env b h
    unfold spend_to_offer_bytes
    rw [foldlM_lowerStep_allUnmatched env b.coin_spends h []]
    rfl
  · intro env b s hs h2
    refine isError_spend_to_offer env b (foldlM_lowerStep_fails env b.coin_spends s hs ?_ [])
    unfold spendStepFails
    cases hm : matchesOf env s with
    | nil => rw [hm] at h2; simp at h2
    | cons m rest =>
      cases rest with
      | nil => rw [hm] at h2; simp at h2
      | cons m2 rest2 => trivial

/-! ### Concrete environments for the counterexamples and witnesses -/

/-- A `CoinInfo` whose spend construction always fails (never invoked in the
scenarios below). -/
def trivInfo : CoinInfo := ⟨fun a _ => a, fun _ _ => .error .valueError⟩

/-- A fully stubbed collaborator environment with no outer wallets: no spend is
ever matched. -/
def envNoWallets : ActionEnv where
  outer_wallets := []
  action_aliases := []
  uncurry := fun p => (p, Prog.nil)
  tree_hash := fun _ => 0
  serialize := fun _ => []
  prog_from_bytes := fun _ => .error .valueError
  offer_mod := Prog.nil
  graftroot_dl_offers := Prog.nil
  create_host_fullpuz := fun p _ _ => p
  build_environment := fun _ _ _ p => p
  castProgram := fun _ => Prog.nil
  toProgStr := fun _ => Prog.nil
  toProgInt := fun _ => Prog.nil
  toProgBytes32 := fun _ => Prog.nil
  atom_to_bytes32 := fun _ => .error .valueError
  announcement_name := fun _ _ => []
  payment_as_condition_args := fun _ => Prog.nil
  payment_from_condition := fun _ => .error .valueError
  de_alias := fun _ => (Prog.nil, Prog.nil, Prog.nil)
  solution_for_delegated_puzzle := fun _ m => m

/-- An ordinary (non-dummy) spend: non-zero parent coin id. -/
def spend1 : CoinSpend := ⟨⟨1, 2, 3⟩, Prog.nil, Prog.nil⟩

def bundle1 : SpendBundle := ⟨[spend1], 3⟩

/-- A wallet that claims every spend. -/
def walletAlways : OuterWallet := ⟨fun _ _ _ => some (trivInfo, [], 0)⟩

def envTwoWallets : ActionEnv := { envNoWallets with outer_wallets := [walletAlways, walletAlways] }

/-- **C1 counterexample.** The claim says a spend matched by zero matchers "is
silently passed through unmodified into the resulting offer".  With no
matchers, the one-spend bundle lowers to an offer with *no* coin spends at all:
the spend is dropped (`continue` skips it), not passed through. -/
theorem spend_to_offer_bytes_drop_counterexample :
    spend_to_offer_bytes envNoWallets bundle1 = .ok ⟨[], 3⟩ ∧
    bundle1.coin_spends = [spend1] ∧
    ¬ spend1 ∈ ([] : List CoinSpend) :=
  ⟨rfl, rfl, by simp⟩

/-- Witness for `spend_to_offer_bytes_match_discipline` at concrete inputs:
with no matchers the one-spend bundle lowers to the empty offer; with two
always-matching wallets lowering the same bundle raises. -/
theorem spend_to_offer_bytes_match_discipline_witness :
    spend_to_offer_bytes envNoWallets bundle1 = .ok ⟨[], 3⟩ ∧
    isError (spend_to_offer_bytes envTwoWallets bundle1) = true :=
  ⟨spend_to_offer_bytes_match_discipline.1 envNoWallets bundle1
      (fun s hs => by rcases List.mem_singleton.mp hs with rfl; rfl),
    spend_to_offer_bytes_match_discipline.2 envTwoWallets bundle1 spend1
      (List.mem_singleton.mpr rfl)
      (le_of_eq (show (2 : Nat) = (matchesOf envTwoWallets spend1).length from rfl))⟩

/-- Shape of a solution admitting the `at("rrf")` access. -/
theorem atPath_rrf_shape (sol c : Prog) (h : sol.atPath ['r', 'r', 'f'] = .ok c) :
    ∃ a b t, sol = .cons a (.cons b (.cons c t)) := by
  cases sol with
  | atom _ => simp [Prog.atPath] at h
  | cons a t1 =>
    cases t1 with
    | atom _ => simp [Prog.atPath] at h
    | cons b t2 =>
      cases t2 with
      | atom _ => simp [Prog.atPath] at h
      | cons c' t =>
        simp [Prog.atPath] at h
        exact ⟨a, b, t, by rw [h]⟩

/-- **C6.** Unconsumed actions abort the lowering: if the unique match of some
spend in the bundle partitions its actions successfully, passes the
single-DL-graftroot check, and `create_spend_for_actions` returns a non-empty
`remaining_actions` list, then the whole `spend_to_offer_bytes` call raises —
it never returns a bundle with an unattached action. -/
theorem spend_to_offer_bytes_unconsumed (env : ActionEnv) (b : SpendBundle)
    (s : CoinSpend) (info : CoinInfo) (acts : List WalletAction) (k : Nat)
    (dls others : List SV) (dummies : List CoinSpend) (rem : List SV) (sp : CoinSpend)
    (hs : s ∈ b.coin_spends)
    (hm : matchesOf env s = [(info, acts, k)])
    (hloop : actionLoop env (info.alias_actions acts env.action_aliases) =
      .ok (dls, others, dummies))
    (hdl : dls.length ≤ 1)
    (hcreate : info.create_spend_for_actions (others ++ dls) env.action_aliases =
      .ok (rem, sp))
    (hrem : rem ≠ []) :
    isError (spend_to_offer_bytes env b) = true := by
  refine isError_spend_to_offer env b (foldlM_lowerStep_fails env b.coin_spends s hs ?_ [])
  unfold spendStepFails
  rw [hm]
  show isError (processMatchedSpend env info acts) = true
  unfold processMatchedSpend
  simp only [hloop, ok_bind]
  rw [if_neg (by omega : ¬ dls.length > 1)]
  simp only [hcreate, ok_bind]
  have hrem' : rem.length > 0 := List.length_pos.mpr hrem
  cases hp : sp.solution.atPath ['r', 'r', 'f'] with
  | error e => rfl
  | ok c =>
    simp only [ok_bind]
    cases c with
    | atom bs =>
      simp [pure_ok, ok_bind, hrem', isError]
    | cons f r =>
      by_cases hf : f = env.toProgStr "graftroot"
      · obtain ⟨a, b', t, hsol⟩ := atPath_rrf_shape sp.solution (Prog.cons f r) hp
        rw [hsol]
        simp [hf, Prog.firstE, Prog.atPath, ok_bind, pure_ok, hrem', isError]
      · simp [hf, ok_bind, pure_ok, hrem', isError]

/-- A spend whose solution has three entries, as produced by a well-formed
spend builder (third entry an atom, so no graftroot rewrite applies). -/
def spendOut : CoinSpend := ⟨⟨1, 2, 3⟩, Prog.nil, Prog.ofList [Prog.nil, Prog.nil, Prog.nil]⟩

/-- A `CoinInfo` whose spend construction leaves one action unconsumed. -/
def infoLeftover : CoinInfo := ⟨fun a _ => a, fun _ _ => .ok ([SV.str "leftover"], spendOut)⟩

def walletLeftover : OuterWallet := ⟨fun _ _ _ => some (infoLeftover, [], 0)⟩

def envLeftover : ActionEnv := { envNoWallets with outer_wallets := [walletLeftover] }

/-- Witness for `spend_to_offer_bytes_unconsumed`: a one-spend bundle whose
unique match builds a spend but leaves one action unconsumed; the whole
lowering raises. -/
theorem spend_to_offer_bytes_unconsumed_witness :
    isError (spend_to_offer_bytes envLeftover bundle1) = true :=
  spend_to_offer_bytes_unconsumed envLeftover bundle1 spend1 infoLeftover [] 0
    [] [] [] [SV.str "leftover"] spendOut
    (List.mem_singleton.mpr rfl) rfl rfl (by decide) rfl (by simp)

/-! ## The offer-parsing engine (`offer_to_spend` and its helpers,
lines 344-361 and 468-581) -/

/-- `find_full_prog_from_mod_in_serialized_program(full_program, start,
num_curried_args)` (lines 344-353): walk backward in fixed 5-byte increments,
re-parsing the tail of the serialized program, until the accumulated curried
arguments reach `num_curried_args`; overshooting raises.  The source loop has
no termination guard (it always decrements `start`), so the model carries fuel;
a loop that never ran leaves `curried_mod` unbound (Python `NameError`). -/
def findFullProgLoop (env : ActionEnv) (full_program : List Nat) :
    Nat → Int → Nat → Nat → Option Prog → Except PyErr Prog
  | 0, _, _, _, _ => .error .recursionError
  | fuel + 1, start, curried_args, num, last =>
    if curried_args < num then do
      let start' := start - 5
      let curried_mod ← env.prog_from_bytes (pySliceFrom full_program start')
      let new_curried_args := (env.uncurry curried_mod).2.asList
      findFullProgLoop env full_program fuel start'
        (curried_args + new_curried_args.length) num (some curried_mod)
    else
      if curried_args > num then .error .valueError
      else
        match last with
        | some m => .ok m
        | none => .error .nameError

def find_full_prog_from_mod_in_serialized_program (env : ActionEnv) (fuel : Nat)
    (full_program : List Nat) (start : Int) (num_curried_args : Nat) :
    Except PyErr Prog :=
  findFullProgLoop env full_program fuel start 0 num_curried_args none

/-- `uncurry_to_mod(program, target_mod)` (lines 356-361): repeatedly uncurry,
prepending each layer's curried arguments, until reaching `target_mod`.  The
source loop does not terminate when uncurrying reaches a fixpoint other than
the target, hence the fuel. -/
def uncurryToModLoop (env : ActionEnv) :
    Nat → Prog → Prog → List Prog → Except PyErr (List Prog)
  | 0, _, _, _ => .error .recursionError
  | fuel + 1, program, target_mod, curried_args =>
    if program = target_mod then .ok curried_args
    else
      let pn := env.uncurry program
      uncurryToModLoop env fuel pn.1 target_mod (pn.2.asList ++ curried_args)

def uncurry_to_mod (env : ActionEnv) (fuel : Nat) (program target_mod : Prog) :
    Except PyErr (List Prog) :=
  uncurryToModLoop env fuel program target_mod []

mutual

/-- `legacy_rp_puzzle_to_asset_types(rp_puzzle)` (lines 468-500): the base case
recognises the payment-settlement module (`OFFER_MOD`) and returns the empty
stack; otherwise the curried arguments are searched for the base module
(`findBaseModule`).  When the search succeeds, lines 489-492 compute the
redacted solution template (`"1"`/`"0"` markers) and disassembled committed
arguments as Python lists, and line 496 then evaluates
`solution_template.join(" ")` — an attribute access on a `list`, which has no
`join` method — so the recursive case always raises `AttributeError` before
returning.  Fuel models Python's recursion limit. -/
def legacy_rp_puzzle_to_asset_types (env : ActionEnv) :
    Nat → Prog → Except PyErr (List SV)
  | 0, _ => .error .recursionError
  | fuel + 1, rp_puzzle =>
    if rp_puzzle = env.offer_mod then .ok []
    else
      let mc := env.uncurry rp_puzzle
      match findBaseModule env fuel mc.2.asList with
      | .error e => .error e
      | .ok none => .error .valueError
      | .ok (some _) => .error .attributeError
termination_by fuel _ => (fuel, 0)

/-- The `for ... else` search for the base module among the curried arguments:
an argument equal to `OFFER_MOD` ends the search with an empty deeper stack; an
argument that uncurries strictly is recursed into, a `ValueError` from the
recursion moving on to the next argument while any other exception propagates;
exhausting the loop reports that no base module was found. -/
def findBaseModule (env : ActionEnv) :
    Nat → List Prog → Except PyErr (Option (Prog × List SV))
  | _, [] => .ok none
  | fuel, curried_arg :: rest =>
    if curried_arg = env.offer_mod then .ok (some (curried_arg, []))
    else
      let im := env.uncurry curried_arg
      if im.1 ≠ curried_arg then
        match legacy_rp_puzzle_to_asset_types env fuel curried_arg with
        | .ok deeper => .ok (some (curried_arg, deeper))
        | .error .valueError => findBaseModule env fuel rest
        | .error e => .error e
      else findBaseModule env fuel rest
termination_by fuel l => (fuel, l.length + 1)

end

/-- The per-spend body of `offer_to_spend` (lines 508-576): scan the serialized
solution for the DL-graftroot byte pattern and for the announcement digests of
the candidate requested-payment dummy spends (smallest offset wins), rebuild
the request-payment/DL-inclusion aliases, and re-wrap the true inner delegated
puzzle with the `"graftroot"` metadata chain; a spend matching neither marker
passes through unchanged. -/
def offerStep (env : ActionEnv) (fuel : Nat) (requested_spends : List CoinSpend)
    (acc : List CoinSpend) (spend : CoinSpend) : Except PyErr (List CoinSpend) := do
  let solution_bytes := env.serialize spend.solution
  let dl_inclusion_index := bytesFind solution_bytes (env.serialize env.graftroot_dl_offers)
  let st ← requested_spends.foldlM
    (fun (st : Int × List WalletAction) requested_spend =>
      (requested_spend.solution.asList).foldlM
        (fun (st : Int × List WalletAction) announcement => do
          let (announcement_hash_index, requested_payments) := st
          let announcement_hash := env.announcement_name
            (env.tree_hash requested_spend.puzzle_reveal) (env.tree_hash announcement)
          let new_index := bytesFind solution_bytes announcement_hash
          if new_index ≠ -1 then do
            let announcement_hash_index' :=
              if announcement_hash_index = -1 then new_index
              else min announcement_hash_index new_index
            let asset_types ← legacy_rp_puzzle_to_asset_types env fuel
              requested_spend.puzzle_reveal
            let fst ← announcement.firstE
            let nonce ← env.atom_to_bytes32 fst
            let payments ← (match announcement with
              | .cons _ r => pure r.asList
              | .atom _ => (.error .valueError : Except PyErr (List Prog))).bind
              (fun conds => conds.mapM env.payment_from_condition)
            pure (announcement_hash_index',
              requested_payments ++ [.requestPayment asset_types (some nonce) payments])
          else
            pure st)
        st)
    ((-1 : Int), ([] : List WalletAction))
  let (announcement_hash_index, requested_payments) := st
  let branch ←
    if dl_inclusion_index ≠ -1 then do
      let delegated_puzzle ← find_full_prog_from_mod_in_serialized_program env fuel
        solution_bytes dl_inclusion_index 4
      let parts ← uncurry_to_mod env fuel delegated_puzzle env.graftroot_dl_offers
      match parts with
      | [inner_puzzle, singleton_structs, _, values_to_prove] => do
        let launcher_ids ← singleton_structs.asList.mapM (fun struct => do
          let v ← struct.atPath ['r', 'f']
          env.atom_to_bytes32 v)
        let vals ← values_to_prove.asList.mapM (fun values =>
          values.asList.mapM env.atom_to_bytes32)
        pure (some (delegated_puzzle, some inner_puzzle,
          [WalletAction.requireDLInclusion launcher_ids vals]))
      | _ => throw PyErr.valueError
    else
      if announcement_hash_index ≠ -1 then do
        let delegated_puzzle ← env.prog_from_bytes
          (pySliceFrom solution_bytes (announcement_hash_index - 9))
        pure (some (delegated_puzzle, none, ([] : List WalletAction)))
      else
        pure none
  match branch with
  | none => pure (acc ++ [spend])
  | some (delegated_puzzle, innerOpt, dl_inclusions) => do
    let delegated_puzzle_bytes := env.serialize delegated_puzzle
    let graftroot_solution_index := bytesFind solution_bytes delegated_puzzle_bytes - 3
    let graftroot_solution_bytes := pySliceFrom solution_bytes graftroot_solution_index
    let graftroot_solution ← env.prog_from_bytes graftroot_solution_bytes
    let _delegated_solution ← graftroot_solution.atPath ['r', 'r', 'f']
    let metadata0 := (requested_payments ++ dl_inclusions).foldl
      (fun metadata al =>
        let g := env.de_alias al
        Prog.cons (Prog.ofList [g.1, g.2.1, g.2.2]) metadata)
      Prog.nil
    let inner_start := match innerOpt with
      | some inner_puzzle => inner_puzzle
      | none => delegated_puzzle
    let inner_delegated_puzzle ←
      if announcement_hash_index ≠ -1 then
        requested_payments.foldlM
          (fun (p : Prog) _ => p.atPath ['r', 'r', 'f', 'r', 'f', 'r']) inner_start
      else
        pure inner_start
    let metadata := Prog.cons (env.toProgStr "graftroot")
      (Prog.cons inner_delegated_puzzle metadata0)
    pure (acc ++ [CoinSpend.mk spend.coin spend.puzzle_reveal
      (env.solution_for_delegated_puzzle delegated_puzzle metadata)])

/-- `offer_to_spend(offer)` (lines 503-581).  An `Offer` is modelled as the
spend bundle its bytes encode (legacy offers carry the dummy carrier spends in
the bundle itself, so `offer.bundle` and `offer.to_spend_bundle()` coincide);
the candidate requested-payment spends are those with a zeroed parent id. -/
def offer_to_spend (env : ActionEnv) (fuel : Nat) (offer : SpendBundle) :
    Except PyErr SpendBundle := do
  let requested_spends := offer.coin_spends.filter
    (fun cs => cs.coin.parent_coin_info = 0)
  let new_spends ← offer.coin_spends.foldlM (offerStep env fuel requested_spends) []
  pure ⟨new_spends, offer.aggregated_signature⟩

/-! ### C7: the round trip -/

/-- `offer_to_spend(spend_to_offer_bytes(bundle))`. -/
def round_trip (env : ActionEnv) (fuel : Nat) (bundle : SpendBundle) :
    Except PyErr SpendBundle :=
  (spend_to_offer_bytes env bundle).bind (offer_to_spend env fuel)

/-- **C7 (amended).** For a bundle containing no dummy carriers none of whose
spends is claimed by any asset matcher, the round trip preserves the aggregated
signature but yields an offer with *no* coin spends: unmatched spends are
dropped by `spend_to_offer_bytes` (its zero-match `continue`), not passed
through, so the round trip does not reproduce the original bundle. -/
theorem round_trip_unmatched_dropped (env : ActionEnv) (fuel : Nat) (b : SpendBundle)
    (hnodummy : ∀ s ∈ b.coin_spends, s.coin.parent_coin_info ≠ 0)
    (hunmatched : ∀ s ∈ b.coin_spends, matchesOf env s = []) :
    round_trip env fuel b = .ok ⟨[], b.aggregated_signature⟩ := by
  have _h := hnodummy
  unfold round_trip spend_to_offer_bytes
  rw [foldlM_lowerStep_allUnmatched env b.coin_spends hunmatched []]
  rfl

/-- **C7 counterexample.** A one-spend bundle with no dummy carriers (parent id
non-zero) whose spend no matcher claims: the round trip returns an offer with
no coin spends at all, so the coins of the original bundle are not preserved
and the claimed equality up to solution re-encoding fails. -/
theorem round_trip_counterexample :
    round_trip envNoWallets 37 bundle1 = .ok ⟨[], 3⟩ ∧
    bundle1.coin_spends.all (fun s => s.coin.parent_coin_info != 0) = true ∧
    bundle1.coin_spends.map CoinSpend.coin = [⟨1, 2, 3⟩] ∧
    ¬ (([] : List CoinSpend).map CoinSpend.coin = bundle1.coin_spends.map CoinSpend.coin) :=
  ⟨rfl, rfl, rfl, by simp [bundle1]⟩

/-- Witness for `round_trip_unmatched_dropped` at the concrete one-spend
bundle. -/
theorem round_trip_unmatched_dropped_witness :
    round_trip envNoWallets 37 bundle1 = .ok ⟨[], 3⟩ :=
  round_trip_unmatched_dropped envNoWallets 37 bundle1
    (fun s hs => by rcases List.mem_singleton.mp hs with rfl; decide)
    (fun s hs => by rcases List.mem_singleton.mp hs with rfl; rfl)

/-! ### C9: the legacy requested-payment decoder -/

/-- The payment-settlement base module of the concrete decoding scenario. -/
def omAtom : Prog := .atom [1]

/-- A one-layer legacy requested-payment puzzle: a wrapper whose curried
arguments contain the base module. -/
def catRP : Prog := .cons (.atom [2]) (.atom [])

/-- A puzzle none of whose curried arguments contains the base module. -/
def noBaseRP : Prog := .cons (.atom [4]) (.atom [])

/-- Collaborator environment for the decoding scenario: `catRP` uncurries into
a module and the single curried argument `omAtom`; `noBaseRP` uncurries into a
module and a single atom argument that is not the base module and does not
uncurry further. -/
def envRP : ActionEnv :=
  { envNoWallets with
    offer_mod := omAtom,
    uncurry := fun p =>
      if p = catRP then (Prog.atom [3], Prog.ofList [omAtom])
      else if p = noBaseRP then (Prog.atom [3], Prog.ofList [Prog.atom [9]])
      else (p, Prog.nil) }

/-- **C9 (code bug).** On the base module itself the decoder returns the empty
stack, and when no curried argument holds the base module it raises the
decoding `ValueError`; but on *every* puzzle with a non-empty asset-type stack
(here: one layer with the base module among its curried arguments) it raises
`AttributeError` instead of returning the stack, because the template
construction calls `solution_template.join(" ")` on a Python `list` (the
operands of `str.join` are reversed). -/
theorem legacy_rp_join_attribute_error :
    legacy_rp_puzzle_to_asset_types envRP 9 envRP.offer_mod = .ok [] ∧
    legacy_rp_puzzle_to_asset_types envRP 9 noBaseRP = .error .valueError ∧
    legacy_rp_puzzle_to_asset_types envRP 9 catRP = .error .attributeError := by
  refine ⟨?_, ?_, ?_⟩
  · rw [show (9 : Nat) = 8 + 1 from rfl]
    rw [legacy_rp_puzzle_to_asset_types]
    simp
  · rw [show (9 : Nat) = 8 + 1 from rfl]
    rw [legacy_rp_puzzle_to_asset_types]
    rw [if_neg (by decide : ¬ noBaseRP = envRP.offer_mod)]
    simp only [show envRP.uncurry noBaseRP = (Prog.atom [3], Prog.ofList [Prog.atom [9]])
      from rfl]
    rw [show (Prog.ofList [Prog.atom [9]]).asList = [Prog.atom [9]] from rfl]
    rw [findBaseModule]
    rw [if_neg (by decide : ¬ Prog.atom [9] = envRP.offer_mod)]
    simp only [show envRP.uncurry (Prog.atom [9]) = (Prog.atom [9], Prog.nil) from rfl]
    rw [if_neg (by decide : ¬ (Prog.atom [9], Prog.nil).1 ≠ Prog.atom [9])]
    rw [findBaseModule]
  · rw [show (9 : Nat) = 8 + 1 from rfl]
    rw [legacy_rp_puzzle_to_asset_types]
    rw [if_neg (by decide : ¬ catRP = envRP.offer_mod)]
    simp only [show envRP.uncurry catRP = (Prog.atom [3], Prog.ofList [omAtom]) from rfl]
    rw [show (Prog.ofList [omAtom]).asList = [omAtom] from rfl]
    rw [findBaseModule]
    rw [if_pos (by decide : omAtom = envRP.offer_mod)]

/-! ## `generate_summary_complement` (lines 584-635)

The action aliases' solver encodings (`OfferedAmount`, `Fee`,
`RequestPayment.from_solver` — `chia.wallet.trading.action_aliases`, outside
the core sources) are modelled from the spec: stable `"type"` discriminants and
lossless map round-trips, with amounts serialized as text and hashes as
`"0x"`-hex. -/

def hexDigitVal (c : Char) : Option Nat :=
  if '0' ≤ c ∧ c ≤ '9' then some (c.toNat - '0'.toNat)
  else if 'a' ≤ c ∧ c ≤ 'f' then some (c.toNat - 'a'.toNat + 10)
  else if 'A' ≤ c ∧ c ≤ 'F' then some (c.toNat - 'A'.toNat + 10)
  else none

/-- Parse a (possibly `"0x"`-prefixed) hex string. -/
def hexToNat (s0 : String) : Option Nat :=
  let body := match s0.toList with
    | '0' :: 'x' :: rest => rest
    | cs => cs
  body.foldl
    (fun acc c => acc.bind (fun a => (hexDigitVal c).map (fun d => a * 16 + d)))
    (some 0)

/-- Modelled from the spec: `OfferedAmount(amount).to_solver()`. -/
def OfferedAmount_to_solver (amount : Int) : SV :=
  .dict [("type", .str "offered_amount"), ("amount", .str (toString amount))]

/-- Modelled from the spec: `Fee(amount).to_solver()`. -/
def Fee_to_solver (amount : Int) : SV :=
  .dict [("type", .str "fee"), ("amount", .str (toString amount))]

/-- Modelled from the spec: a payment map back into a `Payment`. -/
def payment_from_solver (v : SV) : Except PyErr PaymentR := do
  let ph ← svGet v "puzhash"
  let phN ← match ph with
    | .str s0 =>
      match hexToNat s0 with
      | some n => pure ((n : Nat) : Int)
      | none => throw PyErr.valueError
    | .int n => pure n
    | _ => throw PyErr.typeError
  let amt ← svGet v "amount"
  let amtI ← cast_to_int amt
  let memos ← svGet v "memos"
  let memosL ← match memos with
    | .list l => pure l
    | _ => throw PyErr.typeError
  let memosN ← memosL.mapM (fun m =>
    match m with
    | .str s0 =>
      match hexToNat s0 with
      | some n => pure ((n : Nat) : Int)
      | none => throw PyErr.valueError
    | .int n => pure n
    | _ => throw PyErr.typeError)
  pure ⟨phN, amtI.toNat, memosN⟩

/-- Modelled from the spec: `RequestPayment.from_solver(action)` — required
`asset_types` and `payments`, optional `nonce`; missing or malformed keys are
decoding errors. -/
def request_payment_from_solver (action : SV) :
    Except PyErr (List SV × Option Nat × List PaymentR) := do
  let ats ← svGet action "asset_types"
  let atsL ← match ats with
    | .list l => pure l
    | _ => throw PyErr.typeError
  let nonce ← match action with
    | .dict d =>
      match lookupKey "nonce" d with
      | some (.str s0) =>
        match hexToNat s0 with
        | some n => pure (some n)
        | none => throw PyErr.valueError
      | some _ => throw PyErr.typeError
      | none => pure none
    | _ => throw PyErr.typeError
  let pays ← svGet action "payments"
  let paysL ← match pays with
    | .list l => pure l
    | _ => throw PyErr.typeError
  let payments ← paysL.mapM payment_from_solver
  pure (atsL, nonce, payments)

/-- `generate_summary_complement(summary, additional_summary, fee)`: derive the
counter-party's mirror summary.  `p2F` supplies the fresh p2 puzzle hashes
(`main_wallet.get_new_puzzlehash()`, one per `OfferedAmount` encountered).
Note the fee handling: when the fee is attached to a fee-less,
asset-type-less requested payment, `paid_fee` is set *before* the `do` list is
built, so the `Fee(fee)` entry guarded by `not paid_fee` is never emitted even
though the `with` amount already includes the fee. -/
def generate_summary_complement (p2F : Nat → Nat) (summary additional_summary : SV)
    (fee : Nat) : Except PyErr SV := do
  let actions0 ← svGet summary "actions"
  let actionsL ← match actions0 with
    | .list l => pure l
    | _ => throw PyErr.typeError
  let bundle_actions ← match summary with
    | .dict d =>
      match lookupKey "bundle_actions" d with
      | some (.list l) => pure l
      | some _ => throw PyErr.typeError
      | none => pure ([] : List SV)
    | _ => throw PyErr.typeError
  let st ← (actionsL ++ bundle_actions).foldlM
    (fun (st : List SV × List SV × Bool × Nat) total_action => do
      let actions_to_loop ←
        if bundle_actions.any (SV.beq total_action) then
          pure [total_action]
        else do
          let d0 ← svGet total_action "do"
          match d0 with
          | .list l => pure l
          | _ => throw PyErr.typeError
      actions_to_loop.foldlM
        (fun (st : List SV × List SV × Bool × Nat) action => do
          let (comp_actions, comp_bundle_actions, paid_fee, ctr) := st
          let ty ← svGet action "type"
          if SV.beq ty (.str "offered_amount") then do
            let new_p2_puzhash := p2F ctr
            let amt ← cast_to_int (← svGet action "amount")
            let self_payment : PaymentR :=
              ⟨(new_p2_puzhash : Int), amt.toNat, [(new_p2_puzhash : Int)]⟩
            let w ← svGet total_action "with"
            let asset_types ← match w with
              | .dict d =>
                match lookupKey "asset_types" d with
                | some (.list l) => pure l
                | some _ => throw PyErr.typeError
                | none => pure ([] : List SV)
              | _ => throw PyErr.typeError
            pure (comp_actions,
              comp_bundle_actions ++
                [(WalletAction.requestPayment asset_types none [self_payment]).to_solver],
              paid_fee, ctr + 1)
          else
            if SV.beq ty (.str "request_payment") then do
              let rp ← request_payment_from_solver action
              let (asset_types, _nonce, payments) := rp
              let offered_amount : Int := (payments.map (fun p => (p.amount : Int))).sum
              let attach := paid_fee = false ∧ asset_types.isEmpty = true
              let total_amount := offered_amount + (if attach then (fee : Int) else 0)
              let paid_fee' := if attach then true else paid_fee
              pure (comp_actions ++
                  [SV.dict [
                    ("with", .dict [("asset_types", .list asset_types),
                      ("amount", .str (toString total_amount))]),
                    ("do", .list ([OfferedAmount_to_solver offered_amount] ++
                      (if paid_fee' = false ∧ asset_types.isEmpty = true then
                        [Fee_to_solver (fee : Int)] else [])))]],
                comp_bundle_actions, paid_fee', ctr)
            else
              pure (comp_actions, comp_bundle_actions, paid_fee, ctr))
        st)
    (([] : List SV), ([] : List SV), decide (fee = 0), (0 : Nat))
  let (comp_actions, comp_bundle_actions, paid_fee, _) := st
  let addActions ← match additional_summary with
    | .dict d =>
      match lookupKey "actions" d with
      | some (.list l) => pure l
      | some _ => throw PyErr.typeError
      | none => pure ([] : List SV)
    | _ => throw PyErr.typeError
  let addBundle ← match additional_summary with
    | .dict d =>
      match lookupKey "bundle_actions" d with
      | some (.list l) => pure l
      | some _ => throw PyErr.typeError
      | none => pure ([] : List SV)
    | _ => throw PyErr.typeError
  pure (.dict [
    ("actions", .list (comp_actions ++
      (if paid_fee = false then
        [SV.dict [("with", .dict [("amount", .int (fee : Int))]),
          ("do", .list [Fee_to_solver (fee : Int)])]] else []) ++ addActions)),
    ("bundle_actions", .list (comp_bundle_actions ++ addBundle))])

/-- The C8 failing input: one fee-less, asset-type-less requested payment of 7
mojos, network fee 10. -/
def summaryC8 : SV :=
  .dict [("actions", .list []),
    ("bundle_actions", .list [SV.dict [
      ("type", .str "request_payment"),
      ("asset_types", .list []),
      ("payments", .list [SV.dict [
        ("puzhash", .str "0x07"),
        ("amount", .str "7"),
        ("memos", .list [])]])]])]

/-- **C8 (code bug).** At the failing input the complement's single action
block carries `with.amount = "17"` (payment total 7 plus the fee 10), yet its
`do` list is exactly `[OfferedAmount(7)]` — no `Fee(10)` action, contradicting
the claim: the branch that would append `Fee(fee)` is guarded by `not paid_fee`
but `paid_fee` was already set to `True` when the fee was folded into the
amount, so the guard is dead.  (The standalone fallback block for summaries
with no fee-less payment is emitted as claimed.) -/
theorem generate_summary_complement_dead_fee :
    generate_summary_complement (fun _ => 99) summaryC8 (.dict []) 10 =
      .ok (.dict [
        ("actions", .list [SV.dict [
          ("with", .dict [("asset_types", .list []), ("amount", .str "17")]),
          ("do", .list [OfferedAmount_to_solver 7])]]),
        ("bundle_actions", .list [])]) := by
  rfl

/-! ## `old_request_to_new` (lines 47-306)

The bridge from the legacy `{asset_id: signed_amount}` offer dictionary to the
action-list solver.  `driver_dict` is threaded as mutable state (the function
updates it in place for the caller); the auxiliary `solver`, `offer_dict` and
`fee` are read-only.  Wallet resolution (`wallet_state_manager`), including
which wallet classes define `get_puzzle_info`, is an external collaborator. -/

/-- The wallet kinds the bridge distinguishes (`WalletType`, modelled from the
spec: data-layer wallets are special-cased, everything else is uniform). -/
inductive WalletKind where
  | DATA_LAYER
  | OTHER (tag : Nat)
deriving DecidableEq, Repr

/-- A wallet as the bridge sees it: its type tag and, when the wallet class
defines it, the `get_puzzle_info` method deriving the asset's driver. -/
structure WalletSim where
  kind : WalletKind
  get_puzzle_info : Option (Option Nat → SV)

/-- The wallet-state-manager surface used by the bridge. -/
structure WSMEnv where
  main_wallet : WalletSim
  get_wallet_for_asset_id : Nat → Except PyErr WalletSim
  get_new_puzzlehash : Nat → Nat

abbrev DriverDict := List (Option Nat × SV)

/-- The bridge's effect monad: Python exceptions over the caller-visible
`driver_dict` state (mutations made before an exception persist for the
caller). -/
abbrev DriverM := ExceptT PyErr (StateM DriverDict)

def liftE {α : Type} : Except PyErr α → DriverM α
  | .ok v => pure v
  | .error e => throw e

/-- Python dict assignment `driver_dict[k] = v`. -/
def ddSet (k : Option Nat) (v : SV) (d : DriverDict) : DriverDict :=
  if (d.find? (fun p => p.1 = k)).isSome then
    d.map (fun p => if p.1 = k then (k, v) else p)
  else d ++ [(k, v)]

def ddHas (k : Option Nat) (d : DriverDict) : Bool :=
  (d.find? (fun p => p.1 = k)).isSome

/-- `final_solver[k].append(v)` (`KeyError` when the key is absent,
`AttributeError` when the value is not a list). -/
def appendToListKey (k : String) (v : SV) (d : SVDict) : Except PyErr SVDict :=
  match lookupKey k d with
  | some (.list l) => .ok (setKey k (.list (l ++ [v])) d)
  | some _ => .error .attributeError
  | none => .error .keyError

/-- `final_solver[k].extend(vs)`. -/
def extendListKey (k : String) (vs : List SV) (d : SVDict) : Except PyErr SVDict :=
  match lookupKey k d with
  | some (.list l) => .ok (setKey k (.list (l ++ vs)) d)
  | some _ => .error .attributeError
  | none => .error .keyError

/-- Modelled from the spec: `MakeAnnouncement("puzzle", Program.to(b"$")).to_solver()`. -/
def make_announcement_solver : SV :=
  .dict [("type", .str "make_announcement"), ("announcement_type", .str "puzzle"),
    ("announcement_data", .str "$")]

/-- Lines 112-121: resolve the per-asset auxiliary solver entry — the hex key,
then the `0x`-prefixed hex key, then (for the native asset) the empty key;
`None` when every lookup raises `KeyError`. -/
def thisSolverOf (solver : SVDict) (asset_id : Option Nat) : Option SV :=
  match asset_id with
  | some a =>
    match lookupKey (hex64 a) solver with
    | some v => some v
    | none => lookupKey ("0x" ++ hex64 a) solver
  | none => lookupKey "" solver

/-- Lines 124-133: the `require_dl_inclusion` bundle dependency recorded when
the asset's auxiliary solver carries DL `dependencies`. -/
def dlDependencyOf (ts : SV) : Except PyErr (Option SV) := do
  match ts with
  | .dict d =>
    match lookupKey "dependencies" d with
    | none => pure none
    | some (.list deps) => do
      let lids ← deps.mapM (fun dep => do
        let v ← svGet dep "launcher_id"
        match v with
        | .int n => pure (SV.str (hexKey n.toNat))
        | _ => throw PyErr.typeError)
      let vals ← deps.mapM (fun dep => do
        let v ← svGet dep "values_to_prove"
        match v with
        | .list vs => do
          let hx ← vs.mapM (fun x =>
            match x with
            | .int n => pure (SV.str (hexKey n.toNat))
            | _ => throw PyErr.typeError)
          pure (SV.list hx)
        | _ => throw PyErr.typeError)
      pure (some (.dict [("type", .str "require_dl_inclusion"),
        ("launcher_ids", .list lids),
        ("values_to_prove", .list vals)]))
    | some _ => throw PyErr.typeError
  | _ => throw PyErr.typeError

/-- The offered-asset driver walk (lines 96-107).  `type_description` *is* the
stored `PuzzleInfo`'s live `info` mapping (this file's own
`new_summary_to_old` deletes from `.info` directly and calls `.copy()` only
where a copy is wanted), so `del type_description["also"]` strips the stored
driver in place; the immediately following `puzzle_info.also()` then finds no
`"also"` key and returns `None`, and the next loop iteration reads
`None.info`, raising `AttributeError`.  A single-layer driver takes the `else`
branch and returns its description unharmed. -/
def offeredAssetTypesWalk (a : Option Nat) : DriverM (List SV) := do
  let dd ← get
  let d ← liftE (lookupDriver a dd)
  if hasKey "also" d then do
    set (ddSet a (.dict (delKey "also" d)) dd)
    throw PyErr.attributeError
  else
    pure [SV.dict d]

/-- `offered_asset["with"]["amount"] = str(cast_to_int(...) + delta)`. -/
def bumpAmount (offered_with : SVDict) (delta : Int) : Except PyErr SVDict := do
  let amt ← match lookupKey "amount" offered_with with
    | some v => cast_to_int v
    | none => throw PyErr.keyError
  pure (setKey "amount" (.str (toString (amt + delta))) offered_with)

/-- The requested-asset driver walk (lines 220-266): one solver entry per
layer along the `also` chain (CAT, singleton, metadata, ownership; unknown
layer kinds contribute nothing).  The walk is structural in the driver
mapping; the fuel, instantiated with the driver's size, bounds the finite
acyclic chain. -/
def requestedAssetTypes : Nat → SVDict → Except PyErr (List SV)
  | 0, _ => .error .recursionError
  | n + 1, d => do
    let t ← svType d
    let entry ←
      if t = typeCAT then do
        let tail ← svGet (.dict d) "tail"
        pure [SV.dict [("type", .str typeCAT), ("asset_id", tail)]]
      else if t = typeSINGLETON then do
        let li ← svGet (.dict d) "launcher_id"
        let lp ← svGet (.dict d) "launcher_ph"
        pure [SV.dict [("type", .str typeSINGLETON), ("launcher_id", li),
          ("launcher_ph", lp)]]
      else if t = typeMETADATA then do
        let md ← svGet (.dict d) "metadata"
        let uh ← svGet (.dict d) "updater_hash"
        pure [SV.dict [("type", .str typeMETADATA), ("metadata", md),
          ("metadata_updater_hash", uh)]]
      else if t = typeOWNERSHIP then do
        let ow ← svGet (.dict d) "owner"
        let tp ← svGet (.dict d) "transfer_program"
        pure [SV.dict [("type", .str typeOWNERSHIP), ("owner", ow),
          ("transfer_program", tp)]]
      else pure ([] : List SV)
    match svAlso d with
    | none => pure entry
    | some e => do
      let deeper ← requestedAssetTypes n e
      pure (entry ++ deeper)

def old_request_to_new (wsm : WSMEnv) (offer_dict : List (Option Nat × Int))
    (solver : SVDict) (fee : Nat) : DriverM SV := do
  let final_solver := solver
  let offered_assets := offer_dict.filter (fun kv => kv.2 < 0)
  let requested_assets := offer_dict.filter (fun kv => kv.2 > 0)
  -- requested assets missing from driver_dict default to CAT (lines 62-69)
  let dd0 ← get
  let cat_assets : DriverDict := requested_assets.filterMap (fun kv =>
    match kv.1 with
    | some key =>
      if ddHas (some key) dd0 then none
      else some ((some key : Option Nat),
        SV.dict [("type", .str typeCAT), ("tail", .str (hexKey key))])
    | none => none)
  set (cat_assets.foldl (fun d kv => ddSet kv.1 kv.2 d) dd0)
  let final_solver := setdefault "actions" (.list []) final_solver
  -- the offered loop (lines 77-192)
  let st ← offered_assets.foldlM
    (fun (st : SVDict × List SV × List SV) kv => do
      let (final_solver, dl_dependencies, additional_actions) := st
      let asset_id := kv.1
      let amount := kv.2
      let wallet ← match asset_id with
        | none => pure wsm.main_wallet
        | some a => liftE (wsm.get_wallet_for_asset_id a)
      -- reconcile declared vs derived drivers (lines 86-93)
      match wallet.get_puzzle_info with
      | some gpi => do
        let puzzle_driver := gpi asset_id
        let dd ← get
        match dd.find? (fun p => p.1 = asset_id) with
        | some pr =>
          if ¬ SV.beq pr.2 puzzle_driver then throw PyErr.valueError
          else set (ddSet asset_id puzzle_driver dd)
        | none => set (ddSet asset_id puzzle_driver dd)
      | none =>
        if asset_id ≠ none then throw PyErr.valueError else pure ()
      -- the asset-type stack (lines 96-107)
      let asset_types ← match asset_id with
        | none => pure ([] : List SV)
        | some _ => offeredAssetTypesWalk asset_id
      let offered_asset : SVDict :=
        [("with", .dict [("asset_types", .list asset_types),
          ("amount", .str (toString |amount|))]),
          ("do", .list [])]
      let this_solver := thisSolverOf solver asset_id
      -- line 124: `if "dependencies" in this_solver` — `this_solver` may be
      -- `None` here (set two lines above when every solver lookup raised
      -- `KeyError`), and `in None` raises `TypeError`
      let dl_dependencies ← match this_solver with
        | none => throw PyErr.typeError
        | some ts => do
          let dep ← liftE (dlDependencyOf ts)
          pure (match dep with
            | some d => dl_dependencies ++ [d]
            | none => dl_dependencies)
      let (offered_asset, additional_actions) ←
        if wallet.kind = WalletKind.DATA_LAYER then do
          let ts ← match this_solver with
            | some ts => pure ts
            | none => throw PyErr.assertionError
          let nr ← liftE (svGet ts "new_root")
          let nrHex ← match nr with
            | .int n => pure (hex64 n.toNat)
            | _ => throw PyErr.typeError
          let offered_asset := setKey "do"
            (.list [.list [SV.dict [("type", .str "update_metadata"),
              ("new_metadata", .str ("(0x" ++ nrHex ++ ")"))]]]) offered_asset
          pure (offered_asset, additional_actions ++
            [SV.dict [("with", (lookupKey "with" offered_asset).getD .pynone),
              ("do", .list [make_announcement_solver])]])
        else do
          let action_batch := [OfferedAmount_to_solver |amount|]
          -- royalty side-payments (lines 162-167)
          let doRoyalty ← match asset_id with
            | none => pure true
            | some _ => do
              let dd ← get
              let d ← liftE (lookupDriver asset_id dd)
              let t ← liftE (svType d)
              pure (t != typeSINGLETON)
          let (action_batch, offered_asset) ←
            if doRoyalty then do
              let dd ← get
              let payments ← liftE (calculate_royalty_payments requested_assets |amount| dd)
              payments.foldlM
                (fun (st2 : List SV × SVDict) payment => do
                  let (ab, oa) := st2
                  let w ← match lookupKey "with" oa with
                    | some (.dict w) => pure w
                    | _ => throw PyErr.keyError
                  let w2 ← liftE (bumpAmount w (payment.amount : Int))
                  pure (ab ++ [OfferedAmount_to_solver (payment.amount : Int)],
                    setKey "with" (.dict w2) oa))
                (action_batch, offered_asset)
            else pure (action_batch, offered_asset)
          -- fee on the native asset / ownership clearing (lines 170-189)
          let (action_batch, offered_asset) ←
            if asset_id = none ∧ fee > 0 then do
              let w ← match lookupKey "with" offered_asset with
                | some (.dict w) => pure w
                | _ => throw PyErr.keyError
              let w2 ← liftE (bumpAmount w (fee : Int))
              pure (action_batch ++ [Fee_to_solver (fee : Int)],
                setKey "with" (.dict w2) offered_asset)
            else do
              -- `elif driver_dict[asset_id].check_type([...])`: raises
              -- `KeyError` when `asset_id` is absent (the native None key)
              let dd ← get
              let d ← liftE (lookupDriver asset_id dd)
              if check_type d [typeSINGLETON, typeMETADATA, typeOWNERSHIP] then
                pure (action_batch ++ [SV.dict [("type", .str "update_state"),
                  ("update", .dict [("new_owner", .str "()")])]], offered_asset)
              else pure (action_batch, offered_asset)
          pure (setKey "do" (.list action_batch) offered_asset, additional_actions)
      let final_solver ← liftE (appendToListKey "actions" (.dict offered_asset) final_solver)
      pure (final_solver, dl_dependencies, additional_actions))
    (final_solver, ([] : List SV), ([] : List SV))
  let (final_solver, dl_dependencies, additional_actions) := st
  let final_solver ← liftE (extendListKey "actions" additional_actions final_solver)
  -- standalone fee block when nothing native is offered or requested (196-205)
  let final_solver ←
    if ¬ (offer_dict.any (fun kv => kv.1 = none)) ∧ fee > 0 then
      liftE (appendToListKey "actions"
        (.dict [("with", .dict [("amount", .int (fee : Int))]),
          ("do", .list [Fee_to_solver (fee : Int)])]) final_solver)
    else pure final_solver
  let final_solver := setdefault "bundle_actions" (.list []) final_solver
  let final_solver ← liftE (extendListKey "bundle_actions" dl_dependencies final_solver)
  -- the requested loop (lines 210-300); note: no setdefault for "dependencies"
  let st2 ← requested_assets.foldlM
    (fun (st2 : SVDict × Nat) kv => do
      let (final_solver, ctr) := st2
      let asset_id := kv.1
      let amount := kv.2
      let wallet ← match asset_id with
        | none => pure wsm.main_wallet
        | some a => liftE (wsm.get_wallet_for_asset_id a)
      let p2_ph := wsm.get_new_puzzlehash ctr
      let ctr := ctr + 1
      let final_solver ←
        if wallet.kind ≠ WalletKind.DATA_LAYER then do
          let dd ← get
          let d0 ← liftE (lookupDriver asset_id dd)
          let asset_types ← liftE (requestedAssetTypes (SV.sizeDict d0 + 1) d0)
          liftE (appendToListKey "dependencies"
            (.dict [("type", .str "requested_payment"),
              ("asset_types", .list asset_types),
              ("payments", .list [SV.dict [
                ("puzhash", .str (hexKey p2_ph)),
                ("amount", .str (toString amount)),
                ("memos", .list [.str (hexKey p2_ph)])]])]) final_solver)
        else pure final_solver
      -- the royalty formality (lines 282-300)
      let doR ← match asset_id with
        | none => pure true
        | some _ => do
          let dd ← get
          let d ← liftE (lookupDriver asset_id dd)
          let t ← liftE (svType d)
          pure (t != typeSINGLETON)
      let final_solver ←
        if doR then do
          let dd ← get
          let payments ← liftE (calculate_royalty_payments offered_assets amount dd)
          let entries ← liftE (payments.mapM (fun payment => do
            let aidHex ← match asset_id with
              | some a => pure (hexKey a)
              | none => Except.error PyErr.attributeError
            pure (SV.dict [("type", .str "requested_payment"),
              ("asset_id", .str aidHex), ("nonce", .str aidHex),
              ("payments", .list [SV.dict [
                ("puzhash", .str (hexKey payment.address.toNat)),
                ("amount", .str (toString payment.amount)),
                ("memos", .list (payment.memos.map
                  (fun m => SV.str (hexKey m.toNat))))]])])))
          liftE (extendListKey "dependencies" entries final_solver)
        else pure final_solver
      pure (final_solver, ctr))
    (final_solver, 0)
  let final_solver := st2.1
  -- line 302-304
  let final_solver := setdefault "solving_information" (.list []) final_solver
  pure (.dict final_solver)

/-! ### C5 and C10: concrete bridge scenarios -/

/-- The CAT driver the bridge defaults in for the requested asset `0xab` (171). -/
def catX171 : SV := SV.dict [("type", .str typeCAT), ("tail", .str (hexKey 171))]

/-- The spec-scenario wallet environment: a native main wallet (no
`get_puzzle_info`) and a CAT wallet for every other asset id; fresh p2 hashes
1000, 1001, … -/
def wsmC5 : WSMEnv where
  main_wallet := ⟨.OTHER 0, none⟩
  get_wallet_for_asset_id := fun _ => .ok ⟨.OTHER 6, some (fun _ => catX171)⟩
  get_new_puzzlehash := fun n => 1000 + n

/-- An auxiliary solver pre-seeded by the caller with an entry for the native
asset and a `dependencies` list (which the function appends to but never
creates). -/
def solverPre : SVDict := [("", SV.dict []), ("dependencies", SV.list [])]

/-- The offered action block of the scenario: amount `"1010"` with
`OfferedAmount(1000)` and `Fee(10)`. -/
def offeredBlockC5 : SV := SV.dict
  [("with", .dict [("asset_types", .list []), ("amount", .str "1010")]),
    ("do", .list [OfferedAmount_to_solver 1000, Fee_to_solver 10])]

/-- The requested-payment dependency of the scenario: CAT asset `0xab`,
payment amount `"5"` to the fresh p2 hash. -/
def depC5 : SV := SV.dict
  [("type", .str "requested_payment"),
    ("asset_types", .list [SV.dict [("type", .str typeCAT),
      ("asset_id", .str (hexKey 171))]]),
    ("payments", .list [SV.dict [("puzhash", .str (hexKey 1000)),
      ("amount", .str "5"), ("memos", .list [.str (hexKey 1000)])]])]

/-- **C5 (code bug).**  On the spec's scenario — offer 1000 mojos of the
native asset for 5 units of CAT asset `X` with fee 10 — called with the
minimal empty auxiliary solver, `old_request_to_new` raises `TypeError`
before building anything: the native asset has no solver entry, so
`this_solver` is `None`, and line 124 evaluates `"dependencies" in None`
(and the later `final_solver["dependencies"].append` would `KeyError`, since
`"dependencies"` is the one key the function never `setdefault`s).  When the
caller pre-seeds the solver with a native-asset entry and a `dependencies`
list, the function produces exactly the claimed output: one offered action
block with amount `"1010"` containing `OfferedAmount(1000)` and `Fee(10)`,
and exactly one `requested_payment` dependency for `X` with payment amount
`"5"`. -/
theorem old_request_to_new_scenario :
    ((old_request_to_new wsmC5 [(none, -1000), (some 171, 5)] [] 10).run).run [] =
      (.error .typeError, [(some 171, catX171)]) ∧
    ((old_request_to_new wsmC5 [(none, -1000), (some 171, 5)] solverPre 10).run).run [] =
      (.ok (SV.dict [
        ("", SV.dict []),
        ("dependencies", SV.list [depC5]),
        ("actions", SV.list [offeredBlockC5]),
        ("bundle_actions", SV.list []),
        ("solving_information", SV.list [])]),
        [(some 171, catX171)]) :=
  ⟨rfl, rfl⟩

/-- A two-layer derived driver for the offered asset of the C10 scenario. -/
def dY : SV := SV.dict [("type", .str typeCAT), ("tail", .str "t"),
  ("also", .dict [("type", .str typeSINGLETON)])]

/-- `dY` with its `"also"` key stripped — what actually ends up stored. -/
def dYstripped : SV := SV.dict [("type", .str typeCAT), ("tail", .str "t")]

def wsmC10 : WSMEnv where
  main_wallet := ⟨.OTHER 0, none⟩
  get_wallet_for_asset_id := fun _ => .ok ⟨.OTHER 1, some (fun _ => dY)⟩
  get_new_puzzlehash := fun n => n

/-- **C10 (code bug).**  Offering one asset whose wallet derives a two-layer
driver: `old_request_to_new` first stores the derived driver under the asset
id (as the claim says), but the `also`-chain walk then executes
`del type_description["also"]` on that stored driver's live `info` mapping and
only afterwards calls `.also()` — which now finds nothing and returns `None`,
so the next loop iteration raises `AttributeError`.  The caller is left with a
mutated `driver_dict` whose entry is the *stripped* driver, not the derived
one, contradicting the claim that nothing else is added, removed or changed. -/
theorem old_request_to_new_also_strip :
    ((old_request_to_new wsmC10 [(some 7, -100)] [] 0).run).run [] =
      (.error .attributeError, [(some 7, dYstripped)]) ∧
    SV.beq dYstripped dY = false :=
  ⟨rfl, rfl⟩

end ChiaSpec
